import Mathlib

/-!
# skedda: a verification development

A shallow embedding of the Go package `github.com/alyyousuf7/skedda` and of the
fan-out loader and the time window of the commands of its command line tool, with
theorems about the embedded code. The order of `SpaceList` is followed into the
insertion sort of Go's package sort.

Conventions of the embedding

* `time.Time` is the pair of the instant (nanoseconds since the Unix epoch) and the
  zone offset in force at that instant; monotonic clock readings are not modelled
  (every time the package compares comes from `time.Date` or `time.Parse`).
* Go's multiple results are tuples; a `nil` error is `none`.
* A Go string is the `String` of its code points; where its bytes matter (the order
  of strings) they are its UTF-8 encoding, which is what `encoding/json` yields.
* Calls into libraries whose result depends on the outside world (the HTTP round
  trip, the JSON decoding of upstream payloads) are read from a `World` record.
-/

namespace skedda

/-! ## package time -/

/-- The Go type `time.Time`: an instant and the offset (seconds east of UTC) that the
value's location has at that instant. -/
structure Time where
  unixNano : Int
  offset : Int
deriving DecidableEq, Repr

/-- Go `t.After(u)`. -/
def Time.After (t u : Time) : Bool := decide (u.unixNano < t.unixNano)

/-- Go `t.Before(u)`. -/
def Time.Before (t u : Time) : Bool := decide (t.unixNano < u.unixNano)

/-- Go `t.Equal(u)`: the same instant, whatever the locations. -/
def Time.Equal (t u : Time) : Bool := decide (t.unixNano = u.unixNano)

/-- Seconds since the epoch on the wall clock of the value's location (Go `t.abs()`, up to
a shift by a whole number of days). -/
def Time.abs (t : Time) : Int := t.unixNano / 1000000000 + t.offset

/-- Go `t.Hour()`. -/
def Time.Hour (t : Time) : Int := t.abs % 86400 / 3600

/-- Go `t.Minute()`. -/
def Time.Minute (t : Time) : Int := t.abs % 3600 / 60

/-- Go `t.Second()`. -/
def Time.Second (t : Time) : Int := t.abs % 60

/-- Go `isLeap`. -/
def isLeap (year : Int) : Bool :=
  year % 4 == 0 && (year % 100 != 0 || year % 400 == 0)

/-- Go `daysBefore[m]` for a zero-based month `m`: the days of a non-leap year before
that month starts. -/
def daysBefore (m : Int) : Int :=
  match m with
  | 0 => 0
  | 1 => 31
  | 2 => 59
  | 3 => 90
  | 4 => 120
  | 5 => 151
  | 6 => 181
  | 7 => 212
  | 8 => 243
  | 9 => 273
  | 10 => 304
  | 11 => 334
  | _ => 365

/-- Days from 1970-01-01 to January 1st of `year` in the proleptic Gregorian calendar
(Go `daysSinceEpoch`, rebased from the absolute epoch to the Unix epoch). -/
def daysSinceEpoch (year : Int) : Int :=
  let y := year - 1
  365 * y + y / 4 - y / 100 + y / 400 - 719162

/-- Go `time.Date(year, month, day, hour, min, sec, nsec, time.UTC)`: out-of-range fields
are normalised (month 0 is December of the year before, day 0 the last day of the month
before), each `norm(hi, lo, base)` being floor division with remainder. -/
def Date (year month day hour min sec nsec : Int) : Time :=
  let m := month - 1
  let year := year + m / 12
  let m := m % 12
  let month := m + 1
  let sec := sec + nsec / 1000000000
  let nsec := nsec % 1000000000
  let min := min + sec / 60
  let sec := sec % 60
  let hour := hour + min / 60
  let min := min % 60
  let day := day + hour / 24
  let hour := hour % 24
  let d := daysSinceEpoch year + daysBefore (month - 1)
    + (if isLeap year && decide (3 ≤ month) then 1 else 0) + (day - 1)
  let unix := d * 86400 + (hour * 3600 + min * 60 + sec)
  { unixNano := unix * 1000000000 + nsec, offset := 0 }

/-! ## timeoverlap.go -/

/-- The function `TimeOverlaps` of `timeoverlap.go`: true if the t1 range overlaps or is
overlapped by the t2 range. -/
def TimeOverlaps (t1Start t1End t2Start t2End : Time) : Bool :=
  -- wrong inputs
  if t1Start.After t1End || t2Start.After t2End then
    false
  -- subset
  else if (t2Start.After t1Start && t2Start.Before t1End)
      || (t2End.After t1Start && t2End.Before t1End) then
    true
  -- superset
  else if (t2Start.Before t1Start && t2End.After t1Start)
      || (t2Start.Before t1End && t2End.After t1End) then
    true
  -- equal
  else if t2Start.Equal t1Start && t2End.Equal t1End then
    true
  else
    false

/-- The instants of the test table of `timeoverlap_test.go`: 7 March 1991 at `h` o'clock,
UTC. -/
def march7 (h : Int) : Time := Date 1991 3 7 h 0 0 0

/-- The instant `h` o'clock of a day, in UTC:
`time.Date(year, month, day, h, 0, 0, 0, time.UTC)`, as the test table builds its times. -/
def onTheHour (year month day h : Int) : Time := Date year month day h 0 0 0

/-! ## The data model: ruleset.go, booking.go, venue.go, space.go -/

/-- The type `RuleSet` of `ruleset.go`. The embedded `rrule.Set` of the library
`teambition/rrule-go` is known here by what the package asks of it: `All`, the list of
its occurrences. A set that was never filled (JSON `null`) has none. -/
structure RuleSet where
  All : List Time
  ForceValid : Bool
deriving DecidableEq, Repr

/-- The type `Booking` of `booking.go`; `StartTime` and `EndTime` are `DateTime` values, that is
`time.Time` values read from the layout `2006-01-02T15:04:05`. -/
structure Booking where
  ID : Int
  Title : String
  StartTime : Time
  EndTime : Time
  RecurrenceRule : RuleSet
  SpaceIDs : List Int
  VenueID : Int
deriving DecidableEq, Repr

/-- The type `Venue` of `venue.go`. -/
structure Venue where
  ID : Int
  Name : String
  Domain : String
deriving DecidableEq, Repr

/-- The type `Space` of `space.go`. -/
structure Space where
  ID : Int
  Name : String
  VenueID : Int
deriving DecidableEq, Repr

/-! ## The recurring-booking filter of `Skedda.Bookings` (skedda.go, lines 336-356) -/

/-- The body of the loop of `Bookings` up to the value of `add` for one booking `b`:
a booking with occurrences in its rule set is kept when the window and the booking
overlap once the four times of day are put on the date `time.Date(0, 0, 0, ...)`. -/
def bookingAdd (from_ to_ : Time) (b : Booking) : Bool :=
  let add := true
  -- We have to manually filter out the recurring bookings as they are not
  -- filtered by Skedda
  if b.RecurrenceRule.All.length > 0 then
    let t1Start := Date 0 0 0 from_.Hour from_.Minute from_.Second 0
    let t1End := Date 0 0 0 to_.Hour to_.Minute to_.Second 0
    let t2Start := Date 0 0 0 b.StartTime.Hour b.StartTime.Minute b.StartTime.Second 0
    let t2End := Date 0 0 0 b.EndTime.Hour b.EndTime.Minute b.EndTime.Second 0
    TimeOverlaps t1Start t1End t2Start t2End
  else
    add

/-- The loop `for i, b := range bodyMap.Bookings` of `Bookings`: `bookings` is the slice
built so far, the list argument what is left of `bodyMap.Bookings`. -/
def bookingsLoop (from_ to_ : Time) : List Booking → List Booking → List Booking
  | [], bookings => bookings
  | b :: rest, bookings =>
    if bookingAdd from_ to_ b then
      bookingsLoop from_ to_ rest (bookings ++ [b])
    else
      bookingsLoop from_ to_ rest bookings

/-! ## Errors and panics -/

/-- Go error values of the package: its two sentinels, an error known by its message
(`errors.New`, `fmt.Errorf` without `%w`, any library error), and an error made by
`fmt.Errorf` with `%w`, which has a message of its own and unwraps to `inner`. -/
inductive GoError where
  | ErrAuthFailed
  | ErrCredsMissing
  | text (msg : String)
  | wrap (msg : String) (inner : GoError)
deriving DecidableEq, Repr

/-- The method `Error()`. -/
def GoError.Error : GoError → String
  | .ErrAuthFailed => "authentication failed"
  | .ErrCredsMissing => "missing credentials"
  | .text msg => msg
  | .wrap msg _ => msg

/-- Go `errors.Is(err, target)` for a sentinel `target`: `err` or an error it wraps is
the sentinel. -/
def GoError.Is : GoError → GoError → Bool
  | .wrap msg inner, target => GoError.wrap msg inner == target || inner.Is target
  | err, target => err == target

/-- Go `fmt.Errorf(label + ": %w", err)`. -/
def wrapf (label : String) (err : GoError) : GoError :=
  .wrap (label ++ ": " ++ err.Error) err

/-- Go `fmt.Errorf("unknown status: %d", code)`. -/
def unknownStatus (code : Nat) : GoError :=
  .text ("unknown status: " ++ toString code)

/-- A run-time panic of Go. -/
inductive Panic where
  | indexOutOfRange (index : Int) (length : Nat)
  | interfaceConversion
deriving DecidableEq, Repr

/-- What a call comes to: it returns, or it panics. -/
inductive Res (α : Type) where
  | ret (a : α)
  | panic (p : Panic)
deriving DecidableEq, Repr

/-! ## encoding/json, as far as `errorDetail` uses it -/

/-- A JSON document as the scanner of `encoding/json` reads it. A number carries its
literal and whether `strconv.ParseFloat(lit, 64)` accepts it (a literal such as `1e999`
is valid JSON and is out of the range of `float64`). -/
inductive JValue where
  | null
  | bool (b : Bool)
  | number (lit : String) (float64 : Bool)
  | string (s : String)
  | array (items : List JValue)
  | object (members : List (String × JValue))
deriving Repr

mutual
/-- Storing a document in an `interface{}` succeeds unless a number in it is out of
range. -/
def JValue.storable : JValue → Bool
  | .number _ float64 => float64
  | .array items => storableItems items
  | .object members => storableMembers members
  | _ => true
/-- All items of an array are storable. -/
def storableItems : List JValue → Bool
  | [] => true
  | v :: rest => v.storable && storableItems rest
/-- All member values of an object are storable. -/
def storableMembers : List (String × JValue) → Bool
  | [] => true
  | (_, v) :: rest => v.storable && storableMembers rest
end

/-- A Go `map[string]T` filled from the members of a JSON object in their order: indexing
finds the value stored last under the key (`none` is the `ok == false` of Go). -/
def mapIndex {β : Type} : List (String × β) → String → Option β
  | [], _ => none
  | (k, v) :: rest, key =>
    match mapIndex rest key with
    | some later => some later
    | none => if k = key then some v else none

/-- Decoding into a `map[string]interface{}`: `null` gives the nil map (`none`), an
object its members, anything else is a type error (the outer `none`). -/
def decodeErrorObject : JValue → Option (Option (List (String × JValue)))
  | .null => some none
  | .object members => if storableMembers members then some (some members) else none
  | _ => none

/-- Decoding the items of an array one by one into `map[string]interface{}`. -/
def decodeErrorObjects : List JValue → Option (List (Option (List (String × JValue))))
  | [] => some []
  | v :: rest =>
    match decodeErrorObject v, decodeErrorObjects rest with
    | some o, some os => some (o :: os)
    | _, _ => none

/-- Decoding into a `[]map[string]interface{}`: `null` gives the nil slice. -/
def decodeErrorSlice : JValue → Option (List (Option (List (String × JValue))))
  | .null => some []
  | .array items => decodeErrorObjects items
  | _ => none

/-- Decoding the members of the top-level object. -/
def decodeErrorMembers :
    List (String × JValue) → Option (List (String × List (Option (List (String × JValue)))))
  | [] => some []
  | (k, v) :: rest =>
    match decodeErrorSlice v, decodeErrorMembers rest with
    | some sl, some ms => some ((k, sl) :: ms)
    | _, _ => none

/-- Go `json.Unmarshal(buf, &resBody)` for `resBody` of type
`map[string][]map[string]interface{}`, on a syntactically valid document: `none` when
`Unmarshal` returns an error (some value has the wrong JSON type). -/
def unmarshalErrors :
    JValue → Option (List (String × List (Option (List (String × JValue)))))
  | .null => some []
  | .object members => decodeErrorMembers members
  | _ => none

/-! ## net/http, as far as the package uses it -/

/-- What `ioutil.ReadAll` makes of a response body: a read error, or the bytes, given
with the document that `encoding/json` reads in them (`none` when the bytes are not
valid JSON). -/
inductive Body where
  | broken (err : String)
  | data (text : String) (json : Option JValue)
deriving Repr

/-- The URLs the package requests, by their shape. -/
inductive Target where
  /-- The URL `https://www.skedda.com/logins` -/
  | logins
  /-- The URL `https://www.skedda.com/account/login` -/
  | accountLogin
  /-- The URL `https://<domain>.skedda.com/booking` -/
  | booking (domain : String)
  /-- The URL `https://<domain>.skedda.com/webs` -/
  | webs (domain : String)
  /-- The URL `https://<domain>.skedda.com/bookingslists?start=<start>&end=<stop>`, both times
  written in the layout `2006-01-02T15:04:05` and query-escaped -/
  | bookingslists (domain : String) (start stop : Time)
  /-- The URL `https://<domain>.skedda.com/bookings` -/
  | bookings (domain : String)
deriving DecidableEq, Repr

/-- The request bodies the package writes, by their content. -/
inductive Payload where
  /-- no body -/
  | none
  /-- the JSON object `login` with `username`, `password`, `rememberMe: false` and
  `arbitraryerrors: null` -/
  | login (username password : String)
  /-- the form `username=<username>` -/
  | form (username : String)
  /-- the JSON object `booking` with `start`, `end` (layout `2006-01-02T15:04:05`), `title`,
  `venue`, `spaces`, `type: 1` and `price: 0` -/
  | booking (start stop : Time) (title : String) (venue : Int) (spaces : List Int)
deriving DecidableEq, Repr

/-- The `CheckRedirect` policy of the client that sends a request. -/
inductive CheckRedirect where
  /-- the default of `http.Client`: follow redirects -/
  | follow
  /-- In `PrimaryDomain`: always `http.ErrUseLastResponse` -/
  | useLastResponse
  /-- In `verificationToken`: `http.ErrUseLastResponse` when the first label of the host of
  the redirect is `www`, follow otherwise -/
  | stopAtWww
deriving DecidableEq, Repr

/-- A request as the client sends it; `cookies` is what its `Jar` holds then. -/
structure Request where
  method : String
  url : Target
  header : List (String × String)
  body : Payload
  checkRedirect : CheckRedirect
  cookies : List String
deriving DecidableEq, Repr

/-- A parsed `url.URL`, by the three things `PrimaryDomain` reads of it: `Hostname()`,
`Query()` (the values of each key, in order) and `String()`. -/
structure URL where
  Hostname : String
  Query : List (String × List String)
  String : String
deriving DecidableEq, Repr

/-- The result of `url.Parse(res.Header.Get("Location"))`. -/
inductive Location where
  | invalid (err : String)
  | url (u : URL)
deriving Repr

/-- A response: `cookies` is what its `Set-Cookie` headers add to the jar. -/
structure Response where
  StatusCode : Nat
  Location : Location
  Body : Body
  cookies : List String
deriving Repr

/-- The world outside of the program.

* `newRequestError domain`: the error of `http.NewRequest` for a URL with `domain` in
  its host, if `url.Parse` refuses it (the other parts of every URL are well formed);
* `roundTrip earlier req`: what `c.Do(req)` gives (after the redirects that the policy
  of the client follows) when `earlier` are the requests sent before;
* `unmarshalDomains`, `unmarshalVenue`, `unmarshalBookings`: `json.Unmarshal` of a body
  into the `bodyMap` of `Domains` (the keys of `Web.OtherSubdomains`, in the order in
  which the `range` loop meets them), of `Venue` and of `Bookings`;
* `sent`: the requests sent so far, oldest first.

Library errors are known by their message. -/
structure World where
  newRequestError : String → Option String
  roundTrip : List Request → Request → Except String Response
  unmarshalDomains : String → Except String (List String)
  unmarshalVenue : String → Except String (List Venue × List Space)
  unmarshalBookings : String → Except String (List Booking)
  sent : List Request

/-! ## package strings -/

/-- Go `strings.HasPrefix`. -/
def HasPrefix (s pre : String) : Bool := pre.data.isPrefixOf s.data

/-- Go `strings.HasSuffix`. -/
def HasSuffix (s suffix : String) : Bool := suffix.data.isSuffixOf s.data

/-- Go `strings.TrimSuffix`. -/
def TrimSuffix (s suffix : String) : String :=
  if HasSuffix s suffix then ⟨s.data.take (s.data.length - suffix.data.length)⟩ else s

/-! ## The token pattern of `verificationToken`

`<input name="__RequestVerificationToken" (?:.*) value="(.*)" \/>`, matched the way Go's
`regexp` does: the leftmost match, each `.*` taking as much as a backtracking search
allows, `.` being any character but the newline. A match is given as the pair of the
matched text and of the text of group 1. -/

/-- The literal that opens the pattern. -/
def tokenOpen : List Char := "<input name=\"__RequestVerificationToken\" ".data

/-- The literal between the two `.*`. -/
def tokenValue : List Char := " value=\"".data

/-- The literal that closes the pattern. -/
def tokenClose : List Char := "\" />".data

/-- Matching `(.*)" \/>` at the start of the text. -/
def matchGroup : List Char → Option (List Char × List Char)
  | [] => none
  | c :: cs =>
    let stop := if tokenClose.isPrefixOf (c :: cs) then some (tokenClose, []) else none
    if c = '\n' then stop
    else
      match matchGroup cs with
      | some (m, g) => some (c :: m, c :: g)
      | none => stop

/-- Matching `(?:.*) value="(.*)" \/>` at the start of the text. -/
def matchValue : List Char → Option (List Char × List Char)
  | [] => none
  | c :: cs =>
    let here :=
      if tokenValue.isPrefixOf (c :: cs) then
        (matchGroup ((c :: cs).drop tokenValue.length)).map
          (fun (m, g) => (tokenValue ++ m, g))
      else none
    if c = '\n' then here
    else
      match matchValue cs with
      | some (m, g) => some (c :: m, g)
      | none => here

/-- Matching the whole pattern at the start of the text. -/
def matchToken (text : List Char) : Option (List Char × List Char) :=
  if tokenOpen.isPrefixOf text then
    (matchValue (text.drop tokenOpen.length)).map (fun (m, g) => (tokenOpen ++ m, g))
  else none

/-- The leftmost match of the pattern in the text. -/
def findToken : List Char → Option (List Char × List Char)
  | [] => none
  | c :: cs =>
    match matchToken (c :: cs) with
    | some r => some r
    | none => findToken cs

/-- Go `re.FindStringSubmatch(text)` for the token pattern: `nil` without a match, else
the matched text and the text of group 1. -/
def FindStringSubmatch (text : String) : List String :=
  match findToken text.data with
  | none => []
  | some (m, g) => [⟨m⟩, ⟨g⟩]

/-! ## skedda.go -/

/-- The struct `Skedda`: the cookies of its jar, the credentials, the flag. -/
structure Skedda where
  cookiejar : List String
  username : String
  password : String
  isAuthenticated : Bool
deriving DecidableEq, Repr

/-- The constructor `NewWithCreds` (the cookie jar cannot fail to be made with these options). -/
def NewWithCreds (username password : String) : Skedda :=
  { cookiejar := [], username := username, password := password, isAuthenticated := false }

/-- The constructor `New`. -/
def New : Skedda :=
  { cookiejar := [], username := "", password := "", isAuthenticated := false }

/-- The call `c.Do(req)` for a client `c := http.Client{Jar: s.cookiejar, ...}`: the request goes
out with the cookies of the jar, is logged, and the cookies of the response go into the
jar. -/
def clientDo (s : Skedda) (w : World) (req : Request) :
    Except String Response × Skedda × World :=
  let req := { req with cookies := s.cookiejar }
  match w.roundTrip w.sent req with
  | .error err => (.error err, s, { w with sent := w.sent ++ [req] })
  | .ok res =>
    (.ok res, { s with cookiejar := s.cookiejar ++ res.cookies },
      { w with sent := w.sent ++ [req] })

/-- The method `(*Skedda).hasCredentials`. -/
def Skedda.hasCredentials (s : Skedda) : Bool :=
  s.username != "" && s.password != ""

/-- The method `(*Skedda).errorDetail`, given what `ioutil.ReadAll(r)` makes of the reader. -/
def errorDetail (r : Body) : Res (String × Option GoError) :=
  match r with
  | .broken err => .ret ("", some (.text err))
  | .data _ none => .ret ("", some (.text "invalid character looking for beginning of value"))
  | .data _ (some doc) =>
    match unmarshalErrors doc with
    | none => .ret ("", some (.text "json: cannot unmarshal value into Go value"))
    | some resBody =>
      -- resBody["errors"][0]["detail"]
      match (mapIndex resBody "errors").getD [] with
      | [] => .panic (.indexOutOfRange 0 0)
      | first :: _ =>
        match first.bind (fun m => mapIndex m "detail") with
        | none => .ret ("", some (.text "unknown error"))
        | some (.string detail) => .ret (detail, none)
        | some _ => .panic .interfaceConversion

/-- The method `(*Skedda).Auth`. -/
def Skedda.Auth (s : Skedda) (w : World) : Res (Option GoError) × Skedda × World :=
  if s.isAuthenticated then
    (.ret none, s, w)
  else if !s.hasCredentials then
    (.ret (some .ErrCredsMissing), s, w)
  else
    -- json.Marshal of this map and http.NewRequest on this URL cannot fail
    let req : Request :=
      { method := "POST", url := .logins, header := [("Content-Type", "application/json")],
        body := .login s.username s.password, checkRedirect := .follow, cookies := [] }
    match clientDo s w req with
    | (.error err, s, w) => (.ret (some (.text err)), s, w)
    | (.ok res, s, w) =>
      if res.StatusCode != 200 then
        match errorDetail res.Body with
        | .panic p => (.panic p, s, w)
        | .ret (detail, err) =>
          let e : GoError :=
            match err with
            | some _ => unknownStatus res.StatusCode
            | none => .text detail
          (.ret (some (.wrap (GoError.ErrAuthFailed.Error ++ ": " ++ e.Error) .ErrAuthFailed)),
            s, w)
      else
        (.ret none, { s with isAuthenticated := true }, w)

/-- The part of `PrimaryDomain` that reads the 302 response. -/
def primaryDomainOf (res : Response) : Res (String × Option GoError) :=
  match res.Location with
  | .invalid err => .ret ("", some (.text err))
  | .url redirectURL =>
    let suffix := ".skedda.com"
    let host := redirectURL.Hostname
    let unknownURL : GoError := .text ("unknown URL: " ++ redirectURL.String)
    if HasPrefix host "www." || !HasSuffix host suffix then
      if HasSuffix host suffix then
        match redirectURL.Query.lookup "err" with
        | some [] => .panic (.indexOutOfRange 0 0)
        | some (err0 :: _) => .ret ("", some (.text ("request failed: " ++ err0)))
        | none => .ret ("", some unknownURL)
      else
        .ret ("", some unknownURL)
    else
      .ret (TrimSuffix host suffix, none)

/-- The method `(*Skedda).PrimaryDomain`. -/
def Skedda.PrimaryDomain (s : Skedda) (w : World) :
    Res (String × Option GoError) × Skedda × World :=
  match (if !s.isAuthenticated then s.Auth w else (.ret none, s, w)) with
  | (.panic p, s, w) => (.panic p, s, w)
  | (.ret (some err), s, w) => (.ret ("", some err), s, w)
  | (.ret none, s, w) =>
    -- http.NewRequest on this URL cannot fail
    let req : Request :=
      { method := "POST", url := .accountLogin,
        header := [("Content-Type", "application/x-www-form-urlencoded")],
        body := .form s.username, checkRedirect := .useLastResponse, cookies := [] }
    match clientDo s w req with
    | (.error err, s, w) => (.ret ("", some (.text err)), s, w)
    | (.ok res, s, w) =>
      if res.StatusCode != 302 then
        (.ret ("", some (unknownStatus res.StatusCode)), s, w)
      else
        (primaryDomainOf res, s, w)

/-- The method `(*Skedda).verificationToken`. -/
def Skedda.verificationToken (s : Skedda) (w : World) (domain : String) :
    (String × Option GoError) × Skedda × World :=
  match w.newRequestError domain with
  | some err => (("", some (.text err)), s, w)
  | none =>
    let req : Request :=
      { method := "GET", url := .booking domain, header := [], body := .none,
        checkRedirect := .stopAtWww, cookies := [] }
    match clientDo s w req with
    | (.error err, s, w) => (("", some (.text err)), s, w)
    | (.ok res, s, w) =>
      if res.StatusCode == 302 then
        (("", some (.text "invalid domain")), s, w)
      else if res.StatusCode != 200 then
        (("", some (unknownStatus res.StatusCode)), s, w)
      else
        match res.Body with
        | .broken err => (("", some (.text err)), s, w)
        | .data text _ =>
          match FindStringSubmatch text with
          | [_, token] => ((token, none), s, w)
          | _ => (("", some (.text "verification token not found")), s, w)

/-- The method `(*Skedda).Domains`. -/
def Skedda.Domains (s : Skedda) (w : World) (primaryDomain : String) :
    (Option (List String) × Option GoError) × Skedda × World :=
  match s.verificationToken w primaryDomain with
  | ((_, some err), s, w) =>
    ((none, some (wrapf "failed to get verification token" err)), s, w)
  | ((token, none), s, w) =>
    match w.newRequestError primaryDomain with
    | some _ => ((none, none), s, w)
    | none =>
      let req : Request :=
        { method := "POST", url := .webs primaryDomain,
          header := [("X-Skedda-RequestVerificationToken", token)], body := .none,
          checkRedirect := .follow, cookies := [] }
      match clientDo s w req with
      | (.error err, s, w) => ((none, some (.text err)), s, w)
      | (.ok res, s, w) =>
        if res.StatusCode != 200 then
          ((none, some (unknownStatus res.StatusCode)), s, w)
        else
          match res.Body with
          | .broken err => ((none, some (.text err)), s, w)
          | .data text _ =>
            match w.unmarshalDomains text with
            | .error err => ((none, some (.text err)), s, w)
            | .ok domains => ((some domains, none), s, w)

/-- What a failed call answers after `errorDetail`: the detail as an error, or the
status. -/
def statusError (code : Nat) (detail : String × Option GoError) : GoError :=
  match detail with
  | (_, some _) => unknownStatus code
  | (detail, none) => .text detail

/-- The loop `for i := range bodyMap.Spaces` of `Venue`. -/
def venueSpacesLoop : List Space → List Space → List Space
  | [], spaces => spaces
  | sp :: rest, spaces => venueSpacesLoop rest (spaces ++ [sp])

/-- The method `(*Skedda).Venue`. -/
def Skedda.Venue (s : Skedda) (w : World) (domain : String) :
    Res (Option Venue × Option (List Space) × Option GoError) × Skedda × World :=
  match s.verificationToken w domain with
  | ((_, some err), s, w) =>
    (.ret (none, none, some (wrapf "failed to get verification token" err)), s, w)
  | ((token, none), s, w) =>
    match w.newRequestError domain with
    | some err => (.ret (none, none, some (.text err)), s, w)
    | none =>
      let req : Request :=
        { method := "GET", url := .webs domain,
          header := [("X-Skedda-RequestVerificationToken", token)], body := .none,
          checkRedirect := .follow, cookies := [] }
      match clientDo s w req with
      | (.error err, s, w) => (.ret (none, none, some (.text err)), s, w)
      | (.ok res, s, w) =>
        if res.StatusCode != 200 then
          match errorDetail res.Body with
          | .panic p => (.panic p, s, w)
          | .ret detail => (.ret (none, none, some (statusError res.StatusCode detail)), s, w)
        else
          match res.Body with
          | .broken err => (.ret (none, none, some (.text err)), s, w)
          | .data text _ =>
            match w.unmarshalVenue text with
            | .error err => (.ret (none, none, some (.text err)), s, w)
            | .ok (venues, spaces) =>
              match venues with
              | [venue] => (.ret (some venue, some (venueSpacesLoop spaces []), none), s, w)
              | _ => (.ret (none, none, some (.text "no venue found")), s, w)

/-- The method `(*Skedda).Bookings`. -/
def Skedda.Bookings (s : Skedda) (w : World) (domain : String) (from_ to_ : Time) :
    Res (Option (List Booking) × Option GoError) × Skedda × World :=
  match s.verificationToken w domain with
  | ((_, some err), s, w) =>
    (.ret (none, some (wrapf "failed to get verification token" err)), s, w)
  | ((token, none), s, w) =>
    match w.newRequestError domain with
    | some err => (.ret (none, some (.text err)), s, w)
    | none =>
      let req : Request :=
        { method := "GET", url := .bookingslists domain from_ to_,
          header := [("X-Skedda-RequestVerificationToken", token)], body := .none,
          checkRedirect := .follow, cookies := [] }
      match clientDo s w req with
      | (.error err, s, w) => (.ret (none, some (.text err)), s, w)
      | (.ok res, s, w) =>
        if res.StatusCode != 200 then
          match errorDetail res.Body with
          | .panic p => (.panic p, s, w)
          | .ret detail => (.ret (none, some (statusError res.StatusCode detail)), s, w)
        else
          match res.Body with
          | .broken err => (.ret (none, some (.text err)), s, w)
          | .data text _ =>
            match w.unmarshalBookings text with
            | .error err => (.ret (none, some (.text err)), s, w)
            | .ok bodyMap => (.ret (some (bookingsLoop from_ to_ bodyMap []), none), s, w)

/-- Go `t.Truncate(d)` for `d > 0` nanoseconds: `t` rounded down to a multiple of `d`
since the zero time, 1 January of year 1, 00:00 UTC. -/
def Time.Truncate (t : Time) (d : Int) : Time :=
  if d ≤ 0 then t
  else { t with unixNano := t.unixNano - (t.unixNano + 62135596800 * 1000000000) % d }

/-- Go `time.Minute`, in nanoseconds. -/
def Minute : Int := 60 * 1000000000

/-- The end of `Book` (lines 400-409): what it returns once `c.Do` has given the
response `res`. -/
def bookResponse (res : Response) : Res (Option GoError) :=
  if res.StatusCode != 200 then
    match errorDetail res.Body with
    | .panic p => .panic p
    | .ret detail => .ret (some (statusError res.StatusCode detail))
  else
    .ret none

/-- The method `(*Skedda).Book`. -/
def Skedda.Book (s : Skedda) (w : World) (domain : String) (venueID : Int)
    (spaceIDs : List Int) (title : String) (from_ to_ : Time) :
    Res (Option GoError) × Skedda × World :=
  match s.verificationToken w domain with
  | ((_, some err), s, w) =>
    (.ret (some (wrapf "failed to get verification token" err)), s, w)
  | ((token, none), s, w) =>
    -- json.Marshal of this map cannot fail
    match w.newRequestError domain with
    | some err => (.ret (some (.text err)), s, w)
    | none =>
      let req : Request :=
        { method := "POST", url := .bookings domain,
          header := [("X-Skedda-RequestVerificationToken", token),
            ("Content-Type", "application/json")],
          body := .booking (from_.Truncate (1 * Minute)) (to_.Truncate (1 * Minute)) title
            venueID spaceIDs,
          checkRedirect := .follow, cookies := [] }
      match clientDo s w req with
      | (.error err, s, w) => (.ret (some (.text err)), s, w)
      | (.ok res, s, w) => (bookResponse res, s, w)

/-! ## cmd/skedda/cache.go -/

/-- The struct `Result` of `loadFromSkedda`. -/
structure Result where
  Venue : Option Venue
  Spaces : Option (List Space)
  Error : Option GoError
deriving DecidableEq, Repr

/-- The loop `for result := range resultCh` of `loadFromSkedda`. `err` is the variable
`err` of the function at that point, `venues` and `spaces` the lists built so far, and
the list argument what is left in the channel. -/
def collectResults (err : Option GoError) :
    List Result → List (Option Venue) → List Space →
      Option (List (Option Venue)) × Option (List Space) × Option GoError
  | [], venues, spaces => (some venues, some spaces, none)
  | result :: rest, venues, spaces =>
    if result.Error != none then
      (none, none, err)
    else
      collectResults err rest (venues ++ [result.Venue]) (spaces ++ result.Spaces.getD [])

/-- The function `loadFromSkedda` of `cache.go`. The goroutines are given by what they
come to: `worker domain` is the `Result` that the worker of `domain` sends (what its call
of `s.Venue(domain)` returned), and `arrival domains` the order in which the workers of
`domains` send, so that after `wg.Wait()` the channel holds the results of
`arrival domains` in that order. -/
def loadFromSkedda (s : Skedda) (w : World) (worker : String → Result)
    (arrival : List String → List String) :
    Res (Option (List (Option Venue)) × Option (List Space) × Option GoError) :=
  let venues : List (Option Venue) := []
  let spaces : List Space := []
  match s.PrimaryDomain w with
  | (.panic p, _, _) => .panic p
  | (.ret (_, some err), _, _) => .ret (none, none, some (wrapf "fetching primary domain" err))
  | (.ret (primaryDomain, none), s, w) =>
    match s.Domains w primaryDomain with
    | ((_, some err), _, _) => .ret (none, none, some err)
    | ((domains, err), _, _) =>
      let resultCh := (arrival (domains.getD [])).map worker
      .ret (collectResults err resultCh venues spaces)

/-! ## Runs that do not authenticate -/

/-- A run from the session `s` in the world `w` to `s'` in `w'` that did not perform `Auth`:
the flag and the credentials are as before, and the requests sent in between, if any, are
all to another URL than the login endpoint. -/
def WithoutAuth (s : Skedda) (w : World) (s' : Skedda) (w' : World) : Prop :=
  s'.isAuthenticated = s.isAuthenticated ∧ s'.username = s.username ∧
    s'.password = s.password ∧
    ∃ new : List Request, w'.sent = w.sent ++ new ∧ ∀ r ∈ new, r.url ≠ Target.logins

/-! ## Sample inputs -/

/-- A booking page that carries the token tag. -/
def tokenPage : String :=
  "<form>\n<input name=\"__RequestVerificationToken\" type=\"hidden\" value=\"tok\" />\n</form>"

/-- A venue of the tenant `acme`. -/
def sampleVenue : Venue := { ID := 7, Name := "HQ", Domain := "acme" }

/-- Two spaces of that venue. -/
def sampleSpaces : List Space :=
  [{ ID := 1, Name := "Blue", VenueID := 7 }, { ID := 2, Name := "Red", VenueID := 7 }]

/-- A recurring booking, 09:00 to 10:00, whose canonical instance is on 7 March 1991. -/
def standup : Booking :=
  { ID := 1, Title := "standup", StartTime := march7 9, EndTime := march7 10,
    RecurrenceRule := { All := [march7 9, Date 1991 3 14 9 0 0 0], ForceValid := false },
    SpaceIDs := [1], VenueID := 7 }

/-- A booking without recurrence, 14:00 to 15:00 on 1 May 2024. -/
def visit : Booking :=
  { ID := 2, Title := "visit", StartTime := Date 2024 5 1 14 0 0 0,
    EndTime := Date 2024 5 1 15 0 0 0,
    RecurrenceRule := { All := [], ForceValid := false }, SpaceIDs := [2], VenueID := 7 }

/-- A recurring booking, 10:15 to 10:45. -/
def review : Booking :=
  { ID := 3, Title := "review", StartTime := Date 2020 1 6 10 15 0 0,
    EndTime := Date 2020 1 6 10 45 0 0,
    RecurrenceRule := { All := [Date 2020 1 6 10 15 0 0], ForceValid := false },
    SpaceIDs := [1, 2], VenueID := 7 }

/-- The response to a request without a `Location` header and without cookies. -/
def plainResponse (code : Nat) (body : Body) : Response :=
  { StatusCode := code, Location := .url { Hostname := "", Query := [], String := "" },
    Body := body, cookies := [] }

/-- The answer 422 of the specification: `{"errors":[{"detail":"Space unavailable"}]}`. -/
def spaceUnavailable : Response :=
  plainResponse 422
    (.data "\x7b\"errors\":[\x7b\"detail\":\"Space unavailable\"\x7d]\x7d"
      (some (.object [("errors", .array [.object [("detail", .string "Space unavailable")]])])))

/-- An answer 422 whose first error object has, next to its detail, a number that no
`float64` holds: `{"errors":[{"detail":"Space unavailable","retry":1e999}]}`. -/
def unstorableDetail : Response :=
  plainResponse 422
    (.data "\x7b\"errors\":[\x7b\"detail\":\"Space unavailable\",\"retry\":1e999\x7d]\x7d"
      (some (.object [("errors", .array [.object [("detail", .string "Space unavailable"),
        ("retry", .number "1e999" false)]])])))

/-- An answer 422 whose `errors` array has a string after the error object:
`{"errors":[{"detail":"Space unavailable"},"oops"]}`. -/
def strayElement : Response :=
  plainResponse 422
    (.data "\x7b\"errors\":[\x7b\"detail\":\"Space unavailable\"\x7d,\"oops\"]\x7d"
      (some (.object [("errors", .array [.object [("detail", .string "Space unavailable")],
        .string "oops"])])))

/-- A server that accepts every login, sends the account to the tenant `acme`, serves the
token page, lists the tenants `a`, `b`, `c`, one venue with two spaces and three
bookings, and refuses to book. -/
def sampleRoundTrip (_earlier : List Request) (req : Request) : Except String Response :=
  match req.url with
  | .logins => .ok { plainResponse 200 (.data "" none) with cookies := ["session"] }
  | .accountLogin =>
    .ok { plainResponse 302 (.data "" none) with
          Location := .url { Hostname := "acme.skedda.com", Query := [],
                             String := "https://acme.skedda.com/booking" } }
  | .booking _ => .ok (plainResponse 200 (.data tokenPage none))
  | .webs _ => .ok (plainResponse 200 (.data "webs" none))
  | .bookingslists _ _ _ => .ok (plainResponse 200 (.data "bookingslists" none))
  | .bookings _ => .ok spaceUnavailable

/-- The world of that server, before any request. -/
def sampleWorld : World :=
  { newRequestError := fun _ => none
    roundTrip := sampleRoundTrip
    unmarshalDomains := fun _ => .ok ["a", "b", "c"]
    unmarshalVenue := fun _ => .ok ([sampleVenue], sampleSpaces)
    unmarshalBookings := fun _ => .ok [standup, visit, review]
    sent := [] }

/-- The workers of `loadFromSkedda` over the tenants `a`, `b`, `c` when the call of `b`
fails. -/
def sampleWorker (domain : String) : Result :=
  if domain = "b" then
    { Venue := none, Spaces := none, Error := some (.text "no venue found") }
  else
    { Venue := some { sampleVenue with Domain := domain }, Spaces := some sampleSpaces,
      Error := none }

/-! ## Times of day -/

/-- The time of day of `t` as `Bookings` reads it, hour, minute and second, in seconds
since midnight on the wall clock of `t`. -/
def timeOfDay (t : Time) : Int := t.Hour * 3600 + t.Minute * 60 + t.Second

/-- A recurring booking late in the evening, 23:30 to 23:50. -/
def lateShift : Booking :=
  { ID := 4, Title := "late shift", StartTime := Date 2020 1 6 23 30 0 0,
    EndTime := Date 2020 1 6 23 50 0 0,
    RecurrenceRule := { All := [Date 2020 1 6 23 30 0 0], ForceValid := false },
    SpaceIDs := [1], VenueID := 7 }

/-- A recurring booking that crosses midnight, 23:30 to 00:30 of the next day. -/
def nightShift : Booking :=
  { ID := 5, Title := "night shift", StartTime := Date 2020 1 6 23 30 0 0,
    EndTime := Date 2020 1 7 0 30 0 0,
    RecurrenceRule := { All := [Date 2020 1 6 23 30 0 0], ForceValid := false },
    SpaceIDs := [1], VenueID := 7 }

/-- The sample server, except that it answers `res` to every request to `url`. -/
def sampleWorldWith (url : Target) (res : Response) : World :=
  { sampleWorld with
    roundTrip := fun earlier req =>
      if req.url = url then .ok res else sampleRoundTrip earlier req }

/-- The sample server, except that the list of bookings it sends decodes to `lateShift`,
`visit`, `nightShift`. -/
def nightWorld : World :=
  { sampleWorld with unmarshalBookings := fun _ => .ok [lateShift, visit, nightShift] }

/-- A response 302 whose `Location` parses to the URL `u`. -/
def redirectTo (u : URL) : Response :=
  { StatusCode := 302, Location := .url u, Body := .data "" none, cookies := [] }

/-- A session with credentials on which `Auth` has succeeded. -/
def loggedIn : Skedda := { NewWithCreds "u" "p" with isAuthenticated := true }

/-! ## What the token pattern matches -/

/-- The text has a match of the token pattern with `v` as group 1: somewhere in it stand
the opening literal, characters other than newline, the literal ` value="`, the
characters `v`, none of them a newline, and the closing literal. -/
def TokenTag (text : List Char) (v : List Char) : Prop :=
  ∃ pre attrs post : List Char,
    text = pre ++ (tokenOpen ++ (attrs ++ (tokenValue ++ (v ++ (tokenClose ++ post))))) ∧
      '\n' ∉ attrs ∧ '\n' ∉ v

/-- The text has a match of the token pattern that starts after `pre`, with `attrs` as the
text of the first `.*` and `v` as group 1. -/
def TagAt (text pre attrs v : List Char) : Prop :=
  ∃ post : List Char,
    text = pre ++ (tokenOpen ++ (attrs ++ (tokenValue ++ (v ++ (tokenClose ++ post))))) ∧
      '\n' ∉ attrs ∧ '\n' ∉ v

/-- The characters `v` are group 1 of the match that Go's `regexp` reports for the token
pattern: the match that starts leftmost, in which the first `.*` is as long as a match
allows and, after it, group 1 is as long as a match allows. -/
def LeftmostTag (text v : List Char) : Prop :=
  ∃ pre attrs : List Char, TagAt text pre attrs v ∧
    (∀ pre' attrs' v', TagAt text pre' attrs' v' → pre.length ≤ pre'.length) ∧
    (∀ attrs' v', TagAt text pre attrs' v' → attrs'.length ≤ attrs.length) ∧
    (∀ v', TagAt text pre attrs v' → v'.length ≤ v.length)

/-- A page in which another input tag follows the token tag on the same line. -/
def twoTagLine : String :=
  "<input name=\"__RequestVerificationToken\" type=\"hidden\" value=\"abc\" />"
    ++ "<input name=\"x\" value=\"y\" />"

/-- A page in which another tag closed by `" />` follows the token tag on the same line. -/
def tagThenBreak : String :=
  "<input name=\"__RequestVerificationToken\" type=\"hidden\" value=\"abc\" />"
    ++ "<br class=\"sep\" />"

/-- A page with two token tags, on two lines. -/
def twoTokenTags : String :=
  "<input name=\"__RequestVerificationToken\" type=\"hidden\" value=\"first\" />\n"
    ++ "<input name=\"__RequestVerificationToken\" type=\"hidden\" value=\"second\" />"

/-! ## package time, as far as the commands use it -/

/-- Go `time.Hour`, in nanoseconds. -/
def Hour : Int := 3600 * 1000000000

/-- Go `t.Add(d)` for a duration of `d` nanoseconds (the offset is kept: the times that the
commands add to are in UTC). -/
def Time.Add (t : Time) (d : Int) : Time := { t with unixNano := t.unixNano + d }

/-- The bytes of the code point `c` in UTF-8, the encoding of every Go string the
program reads (`encoding/json` yields valid UTF-8). -/
def utf8 (c : Nat) : List Nat :=
  if c < 0x80 then [c]
  else if c < 0x800 then [0xC0 + c / 64, 0x80 + c % 64]
  else if c < 0x10000 then [0xE0 + c / 4096, 0x80 + c / 64 % 64, 0x80 + c % 64]
  else [0xF0 + c / 262144, 0x80 + c / 4096 % 64, 0x80 + c / 64 % 64, 0x80 + c % 64]

/-- The bytes of a string. -/
def bytes : List Char → List Nat
  | [] => []
  | c :: cs => utf8 c.toNat ++ bytes cs

/-- Byte-wise lexical comparison of two byte sequences: the first difference decides,
and a proper prefix comes first. -/
def bytesLess : List Nat → List Nat → Bool
  | _, [] => false
  | [], _ :: _ => true
  | x :: xs, y :: ys => if x < y then true else if y < x then false else bytesLess xs ys

/-- Go `a < b` on strings, which are ordered lexically byte-wise. -/
def stringLess (a b : String) : Bool :=
  bytesLess (bytes a.data) (bytes b.data)

/-! ## spacelist.go -/

/-- The type `SpaceList` of spacelist.go, `[]*Space`. An element is a `Space`: the list
that `find` sorts holds the results of `FindByID` that are not nil, and a nil element,
which `Less` would dereference, is not modelled. -/
abbrev SpaceList := List Space

/-- Go `l[i]` on a `SpaceList`: an index outside `0 ≤ i < len(l)` panics. -/
def SpaceList.index (l : SpaceList) (i : Int) : Res Space :=
  match (if 0 ≤ i then l[i.toNat]? else none) with
  | some s => .ret s
  | none => .panic (.indexOutOfRange i l.length)

/-- Go `func (l SpaceList) Len() int` (spacelist.go, line 24). -/
def SpaceList.Len (l : SpaceList) : Int :=
  l.length

/-- Go `func (l SpaceList) Swap(i, j int)` (spacelist.go, line 25), returning the slice
after `l[i], l[j] = l[j], l[i]`: both operands are read before either is stored. -/
def SpaceList.Swap (l : SpaceList) (i j : Int) : Res SpaceList :=
  match l.index j with
  | .panic p => .panic p
  | .ret sj =>
    match l.index i with
    | .panic p => .panic p
    | .ret si => .ret ((l.set i.toNat sj).set j.toNat si)

/-- Go `func (l SpaceList) Less(i, j int) bool` (spacelist.go, lines 26-31). -/
def SpaceList.Less (l : SpaceList) (i j : Int) : Res Bool :=
  match l.index i with
  | .panic p => .panic p
  | .ret si =>
    match l.index j with
    | .panic p => .panic p
    | .ret sj =>
      if si.VenueID = sj.VenueID then
        .ret (stringLess si.Name sj.Name)
      else
        .ret (decide (si.VenueID < sj.VenueID))

/-- The comparison `Less` makes between the space at `i` (here `s`) and the space at
`j` (here `t`). -/
def spaceLess (s t : Space) : Bool :=
  if s.VenueID = t.VenueID then stringLess s.Name t.Name else decide (s.VenueID < t.VenueID)

/-! ## package sort, run on a `SpaceList` -/

/-- The loop of Go `sort.IsSorted`, `for i := n - 1; i > 0; i--`, entered at `i`:
`if data.Less(i, i-1) { return false }`, and `true` after the loop. -/
def isSortedLoop (data : SpaceList) : Nat → Res Bool
  | 0 => .ret true
  | i + 1 =>
    match SpaceList.Less data ((i + 1 : Nat) : Int) (((i + 1 : Nat) : Int) - 1) with
    | .panic p => .panic p
    | .ret true => .ret false
    | .ret false => isSortedLoop data i

/-- Go `sort.IsSorted(data)`: whether `data` is in the ascending order that `Less`
determines. -/
def IsSorted (data : SpaceList) : Res Bool :=
  isSortedLoop data (SpaceList.Len data - 1).toNat

/-- The inner loop of Go `insertionSort` (package sort),
`for j := i; j > a && data.Less(j, j-1); j-- { data.Swap(j, j-1) }`, entered at
`j = a + d`. -/
def insertionInner (a : Int) : Nat → SpaceList → Res SpaceList
  | 0, data => .ret data
  | d + 1, data =>
    match SpaceList.Less data (a + ((d + 1 : Nat) : Int)) (a + ((d + 1 : Nat) : Int) - 1) with
    | .panic p => .panic p
    | .ret false => .ret data
    | .ret true =>
      match SpaceList.Swap data (a + ((d + 1 : Nat) : Int)) (a + ((d + 1 : Nat) : Int) - 1) with
      | .panic p => .panic p
      | .ret swapped => insertionInner a d swapped

/-- The outer loop of Go `insertionSort`, `for i := a + 1; i < b; i++`, entered at `i`
with `n` rounds to go. -/
def insertionOuter (a : Int) : Nat → Int → SpaceList → Res SpaceList
  | 0, _, data => .ret data
  | n + 1, i, data =>
    match insertionInner a (i - a).toNat data with
    | .panic p => .panic p
    | .ret inserted => insertionOuter a n (i + 1) inserted

/-- Go `insertionSort(data, a, b)` of package sort, the insertion sort that `sort.Sort`
runs on a slice of few elements: it sorts `data[a:b]` through `Less` and `Swap`. -/
def insertionSort (data : SpaceList) (a b : Int) : Res SpaceList :=
  insertionOuter a (b - (a + 1)).toNat (a + 1) data

/-! ## A sample list of spaces -/

/-- Five spaces of two venues, in no order; two of them share venue and name. -/
def rooms : SpaceList :=
  [⟨3, "Zeta", 2⟩, ⟨1, "Alpha", 2⟩, ⟨7, "Beta", 1⟩, ⟨9, "Alpha", 2⟩, ⟨4, "Émile", 1⟩]

/-! ## Theorems -/

/-! ### The overlap test -/

/-- The function `TimeOverlaps` in closed form, on the instants of its arguments. -/
theorem timeOverlaps_closed (t1Start t1End t2Start t2End : Time) :
    TimeOverlaps t1Start t1End t2Start t2End = true ↔
      (t1Start.unixNano ≤ t1End.unixNano ∧ t2Start.unixNano ≤ t2End.unixNano) ∧
      ((t2Start.unixNano < t1End.unixNano ∧ t1Start.unixNano < t2End.unixNano) ∨
        (t2Start.unixNano = t1Start.unixNano ∧ t2End.unixNano = t1End.unixNano)) := by
  simp only [TimeOverlaps, Time.After, Time.Before, Time.Equal]
  split_ifs <;> simp_all <;> omega

/-- Moving the four instants by the same amount does not change `TimeOverlaps`. -/
theorem timeOverlaps_shift (k : Int) (a1 a2 b1 b2 c1 c2 d1 d2 : Time)
    (h1 : c1.unixNano = a1.unixNano + k) (h2 : c2.unixNano = a2.unixNano + k)
    (h3 : d1.unixNano = b1.unixNano + k) (h4 : d2.unixNano = b2.unixNano + k) :
    TimeOverlaps c1 c2 d1 d2 = TimeOverlaps a1 a2 b1 b2 := by
  rw [Bool.eq_iff_iff, timeOverlaps_closed, timeOverlaps_closed, h1, h2, h3, h4]
  constructor <;> intro h <;> omega

/-- C1: `TimeOverlaps` is true exactly when both intervals are valid and an endpoint of t2
lies strictly between `t1Start` and `t1End`, or an endpoint of t1 lies strictly between
`t2Start` and `t2End`, or the two intervals are equal; it is false in every other case. -/
theorem timeOverlaps_iff (t1Start t1End t2Start t2End : Time) :
    (TimeOverlaps t1Start t1End t2Start t2End = true ↔
      (t1Start.unixNano ≤ t1End.unixNano ∧ t2Start.unixNano ≤ t2End.unixNano) ∧
      (((t1Start.unixNano < t2Start.unixNano ∧ t2Start.unixNano < t1End.unixNano) ∨
          (t1Start.unixNano < t2End.unixNano ∧ t2End.unixNano < t1End.unixNano)) ∨
        ((t2Start.unixNano < t1Start.unixNano ∧ t1Start.unixNano < t2End.unixNano) ∨
          (t2Start.unixNano < t1End.unixNano ∧ t1End.unixNano < t2End.unixNano)) ∨
        (t2Start.unixNano = t1Start.unixNano ∧ t2End.unixNano = t1End.unixNano))) ∧
    (TimeOverlaps t1Start t1End t2Start t2End = false ↔
      ¬ ((t1Start.unixNano ≤ t1End.unixNano ∧ t2Start.unixNano ≤ t2End.unixNano) ∧
      (((t1Start.unixNano < t2Start.unixNano ∧ t2Start.unixNano < t1End.unixNano) ∨
          (t1Start.unixNano < t2End.unixNano ∧ t2End.unixNano < t1End.unixNano)) ∨
        ((t2Start.unixNano < t1Start.unixNano ∧ t1Start.unixNano < t2End.unixNano) ∨
          (t2Start.unixNano < t1End.unixNano ∧ t1End.unixNano < t2End.unixNano)) ∨
        (t2Start.unixNano = t1Start.unixNano ∧ t2End.unixNano = t1End.unixNano)))) := by
  rw [← Bool.not_eq_true, timeOverlaps_closed]
  constructor
  · constructor <;> intro h <;> omega
  · constructor <;> intro h <;> omega

/-- C2: if `t1Start` is after `t1End`, or `t2Start` is after `t2End`, `TimeOverlaps` is
false whatever the other interval is. -/
theorem timeOverlaps_invalid (t1Start t1End t2Start t2End : Time)
    (h : t1Start.After t1End = true ∨ t2Start.After t2End = true) :
    TimeOverlaps t1Start t1End t2Start t2End = false := by
  unfold TimeOverlaps
  rcases h with h | h <;> simp [h]

/-- Witness of C2: the inverted interval [12:00, 08:00] against the valid [08:00, 12:00]
that equals it as a set of endpoints, on either side. -/
theorem timeOverlaps_invalid_witness :
    ((march7 12).After (march7 8) = true ∨ (march7 8).After (march7 12) = true) ∧
      TimeOverlaps (march7 12) (march7 8) (march7 8) (march7 12) = false ∧
      TimeOverlaps (march7 8) (march7 12) (march7 12) (march7 8) = false :=
  ⟨Or.inl (by decide),
    timeOverlaps_invalid (march7 12) (march7 8) (march7 8) (march7 12) (Or.inl (by decide)),
    timeOverlaps_invalid (march7 8) (march7 12) (march7 12) (march7 8) (Or.inr (by decide))⟩

/-- The instant 08:00 of the test is the Unix time 668332800. -/
theorem march7_unix : (march7 8).unixNano = 668332800 * 1000000000 := by decide

/-! ### The recurring-booking filter -/

/-- The loop of `Bookings` appends the bookings for which `add` is true, in order. -/
theorem bookingsLoop_eq (from_ to_ : Time) (upstream bookings : List Booking) :
    bookingsLoop from_ to_ upstream bookings
      = bookings ++ upstream.filter (bookingAdd from_ to_) := by
  induction upstream generalizing bookings with
  | nil => simp [bookingsLoop]
  | cons b rest ih =>
    unfold bookingsLoop
    by_cases h : bookingAdd from_ to_ b = true
    · simp [h, ih]
    · simp [h, ih]

/-- The function `time.Date` is the midnight of the date plus the time of day. -/
theorem date_unixNano (year month day hour min sec : Int) :
    (Date year month day hour min sec 0).unixNano
      = (Date year month day 0 0 0 0).unixNano
        + (hour * 3600 + min * 60 + sec) * 1000000000 := by
  simp only [Date]
  generalize daysSinceEpoch (year + (month - 1) / 12) + daysBefore ((month - 1) % 12 + 1 - 1)
    + (if (isLeap (year + (month - 1) / 12) && decide (3 ≤ (month - 1) % 12 + 1)) = true
        then 1 else 0) = K
  omega

/-- The methods `Hour`, `Minute` and `Second` give back the time of day that `time.Date`
was given. -/
theorem date_time_of_day (year month day hour min sec : Int)
    (hh : 0 ≤ hour ∧ hour < 24) (hm : 0 ≤ min ∧ min < 60) (hs : 0 ≤ sec ∧ sec < 60) :
    (Date year month day hour min sec 0).Hour = hour ∧
    (Date year month day hour min sec 0).Minute = min ∧
    (Date year month day hour min sec 0).Second = sec := by
  simp only [Time.Hour, Time.Minute, Time.Second, Time.abs, Date]
  generalize daysSinceEpoch (year + (month - 1) / 12) + daysBefore ((month - 1) % 12 + 1 - 1)
    + (if (isLeap (year + (month - 1) / 12) && decide (3 ≤ (month - 1) % 12 + 1)) = true
        then 1 else 0) = K
  omega

/-- The overlap test on the times of day does not depend on the common date. -/
theorem timeOverlaps_common_date (year month day : Int)
    (h1 m1 s1 h2 m2 s2 h3 m3 s3 h4 m4 s4 : Int) :
    TimeOverlaps (Date year month day h1 m1 s1 0) (Date year month day h2 m2 s2 0)
        (Date year month day h3 m3 s3 0) (Date year month day h4 m4 s4 0)
      = TimeOverlaps (Date 0 0 0 h1 m1 s1 0) (Date 0 0 0 h2 m2 s2 0)
          (Date 0 0 0 h3 m3 s3 0) (Date 0 0 0 h4 m4 s4 0) := by
  apply timeOverlaps_shift
    ((Date year month day 0 0 0 0).unixNano - (Date 0 0 0 0 0 0 0).unixNano)
  all_goals
    rw [date_unixNano year month day, date_unixNano 0 0 0]
    omega

/-- The overlap test on full hours of one day is the test on the hours of any other day. -/
theorem timeOverlaps_onTheHour (year month day a b c d : Int) :
    TimeOverlaps (onTheHour year month day a) (onTheHour year month day b)
        (onTheHour year month day c) (onTheHour year month day d)
      = TimeOverlaps (Date 0 0 0 a 0 0 0) (Date 0 0 0 b 0 0 0) (Date 0 0 0 c 0 0 0)
          (Date 0 0 0 d 0 0 0) :=
  timeOverlaps_common_date year month day a 0 0 b 0 0 c 0 0 d 0 0

/-- The overlap test on instants that many hours after one instant is the test on those
hours of a day. -/
theorem timeOverlaps_add_hours (midnight : Time) (a b c d : Int) :
    TimeOverlaps (midnight.Add (a * Hour)) (midnight.Add (b * Hour))
        (midnight.Add (c * Hour)) (midnight.Add (d * Hour))
      = TimeOverlaps (Date 0 0 0 a 0 0 0) (Date 0 0 0 b 0 0 0) (Date 0 0 0 c 0 0 0)
          (Date 0 0 0 d 0 0 0) := by
  apply timeOverlaps_shift (midnight.unixNano - (Date 0 0 0 0 0 0 0).unixNano)
  all_goals
    rw [date_unixNano 0 0 0]
    simp only [Time.Add, Hour]
    omega

/-- C3: the table of the overlap test for the base interval [08:00, 12:00] and queries of
the same day, whichever day that is: the eleven rows of the specification and the two
further rows of the test. The times are the full hours of the day `year`-`month`-`day` as
`time.Date` gives them in UTC (the test has 7 March 1991), and likewise the instants that
many hours after any instant `midnight`, in any location. -/
theorem timeOverlaps_table (year month day : Int) (midnight : Time) :
    (TimeOverlaps (onTheHour year month day 8) (onTheHour year month day 12)
        (onTheHour year month day 5) (onTheHour year month day 7) = false ∧
      TimeOverlaps (onTheHour year month day 8) (onTheHour year month day 12)
        (onTheHour year month day 6) (onTheHour year month day 8) = false ∧
      TimeOverlaps (onTheHour year month day 8) (onTheHour year month day 12)
        (onTheHour year month day 7) (onTheHour year month day 9) = true ∧
      TimeOverlaps (onTheHour year month day 8) (onTheHour year month day 12)
        (onTheHour year month day 8) (onTheHour year month day 10) = true ∧
      TimeOverlaps (onTheHour year month day 8) (onTheHour year month day 12)
        (onTheHour year month day 9) (onTheHour year month day 11) = true ∧
      TimeOverlaps (onTheHour year month day 8) (onTheHour year month day 12)
        (onTheHour year month day 10) (onTheHour year month day 12) = true ∧
      TimeOverlaps (onTheHour year month day 8) (onTheHour year month day 12)
        (onTheHour year month day 11) (onTheHour year month day 13) = true ∧
      TimeOverlaps (onTheHour year month day 8) (onTheHour year month day 12)
        (onTheHour year month day 12) (onTheHour year month day 14) = false ∧
      TimeOverlaps (onTheHour year month day 8) (onTheHour year month day 12)
        (onTheHour year month day 13) (onTheHour year month day 15) = false ∧
      TimeOverlaps (onTheHour year month day 8) (onTheHour year month day 12)
        (onTheHour year month day 8) (onTheHour year month day 12) = true ∧
      TimeOverlaps (onTheHour year month day 8) (onTheHour year month day 12)
        (onTheHour year month day 7) (onTheHour year month day 13) = true ∧
      TimeOverlaps (onTheHour year month day 8) (onTheHour year month day 12)
        (onTheHour year month day 8) (onTheHour year month day 13) = true ∧
      TimeOverlaps (onTheHour year month day 8) (onTheHour year month day 12)
        (onTheHour year month day 7) (onTheHour year month day 12) = true) ∧
    (TimeOverlaps (midnight.Add (8 * Hour)) (midnight.Add (12 * Hour))
        (midnight.Add (5 * Hour)) (midnight.Add (7 * Hour)) = false ∧
      TimeOverlaps (midnight.Add (8 * Hour)) (midnight.Add (12 * Hour))
        (midnight.Add (6 * Hour)) (midnight.Add (8 * Hour)) = false ∧
      TimeOverlaps (midnight.Add (8 * Hour)) (midnight.Add (12 * Hour))
        (midnight.Add (7 * Hour)) (midnight.Add (9 * Hour)) = true ∧
      TimeOverlaps (midnight.Add (8 * Hour)) (midnight.Add (12 * Hour))
        (midnight.Add (8 * Hour)) (midnight.Add (10 * Hour)) = true ∧
      TimeOverlaps (midnight.Add (8 * Hour)) (midnight.Add (12 * Hour))
        (midnight.Add (9 * Hour)) (midnight.Add (11 * Hour)) = true ∧
      TimeOverlaps (midnight.Add (8 * Hour)) (midnight.Add (12 * Hour))
        (midnight.Add (10 * Hour)) (midnight.Add (12 * Hour)) = true ∧
      TimeOverlaps (midnight.Add (8 * Hour)) (midnight.Add (12 * Hour))
        (midnight.Add (11 * Hour)) (midnight.Add (13 * Hour)) = true ∧
      TimeOverlaps (midnight.Add (8 * Hour)) (midnight.Add (12 * Hour))
        (midnight.Add (12 * Hour)) (midnight.Add (14 * Hour)) = false ∧
      TimeOverlaps (midnight.Add (8 * Hour)) (midnight.Add (12 * Hour))
        (midnight.Add (13 * Hour)) (midnight.Add (15 * Hour)) = false ∧
      TimeOverlaps (midnight.Add (8 * Hour)) (midnight.Add (12 * Hour))
        (midnight.Add (8 * Hour)) (midnight.Add (12 * Hour)) = true ∧
      TimeOverlaps (midnight.Add (8 * Hour)) (midnight.Add (12 * Hour))
        (midnight.Add (7 * Hour)) (midnight.Add (13 * Hour)) = true ∧
      TimeOverlaps (midnight.Add (8 * Hour)) (midnight.Add (12 * Hour))
        (midnight.Add (8 * Hour)) (midnight.Add (13 * Hour)) = true ∧
      TimeOverlaps (midnight.Add (8 * Hour)) (midnight.Add (12 * Hour))
        (midnight.Add (7 * Hour)) (midnight.Add (12 * Hour)) = true) := by
  simp only [timeOverlaps_onTheHour, timeOverlaps_add_hours]
  decide

/-! ### Requests and the session -/

/-- The world after `c.Do(req)`: the request is in the log, nothing else changes. -/
theorem clientDo_world (s : Skedda) (w : World) (req : Request) :
    (clientDo s w req).2.2
      = { w with sent := w.sent ++ [{ req with cookies := s.cookiejar }] } := by
  unfold clientDo
  dsimp only
  split <;> rfl

/-- When `verificationToken` succeeds, `http.NewRequest` accepts the tenant. -/
theorem verificationToken_ok_url (s : Skedda) (w : World) (domain token : String)
    (s1 : Skedda) (w1 : World)
    (h : s.verificationToken w domain = ((token, none), s1, w1)) :
    w1.newRequestError domain = none := by
  unfold Skedda.verificationToken at h
  split at h
  · simp at h
  · rename_i hurl
    have hw := clientDo_world s w
      { method := "GET", url := .booking domain, header := [], body := .none,
        checkRedirect := .stopAtWww, cookies := [] }
    dsimp only at h hw
    split at h
    · simp at h
    · rename_i res s' w' hdo
      rw [hdo] at hw
      simp only at hw
      split_ifs at h
      · simp at h
      · simp at h
      · split at h
        · simp at h
        · split at h
          · simp only [Prod.mk.injEq] at h
            rw [← h.2.2, hw]
            exact hurl
          · simp at h

/-- The path of `Bookings` on which nothing fails: it returns what the loop builds from the
decoded list. -/
theorem bookings_ok (s : Skedda) (w : World) (domain : String) (from_ to_ : Time)
    (token : String) (s1 : Skedda) (w1 : World) (res : Response) (s2 : Skedda) (w2 : World)
    (text : String) (json : Option JValue) (upstream : List Booking)
    (hTok : s.verificationToken w domain = ((token, none), s1, w1))
    (hDo : clientDo s1 w1
        { method := "GET", url := .bookingslists domain from_ to_,
          header := [("X-Skedda-RequestVerificationToken", token)], body := .none,
          checkRedirect := .follow, cookies := [] } = (.ok res, s2, w2))
    (hStatus : res.StatusCode = 200) (hBody : res.Body = .data text json)
    (hDecode : w2.unmarshalBookings text = .ok upstream) :
    s.Bookings w domain from_ to_
      = (.ret (some (bookingsLoop from_ to_ upstream []), none), s2, w2) := by
  have hurl := verificationToken_ok_url s w domain token s1 w1 hTok
  unfold Skedda.Bookings
  simp only [hTok, hurl, hDo, hStatus, hBody, hDecode]
  simp

/-- Doing nothing is a run without `Auth`. -/
theorem withoutAuth_refl (s : Skedda) (w : World) : WithoutAuth s w s w :=
  ⟨rfl, rfl, rfl, [], by simp, by simp⟩

/-- Runs without `Auth` compose. -/
theorem withoutAuth_trans {s s1 s2 : Skedda} {w w1 w2 : World}
    (h1 : WithoutAuth s w s1 w1) (h2 : WithoutAuth s1 w1 s2 w2) : WithoutAuth s w s2 w2 := by
  obtain ⟨a1, b1, c1, n1, e1, f1⟩ := h1
  obtain ⟨a2, b2, c2, n2, e2, f2⟩ := h2
  refine ⟨a2.trans a1, b2.trans b1, c2.trans c1, n1 ++ n2, ?_, ?_⟩
  · rw [e2, e1, List.append_assoc]
  · intro r hr
    rcases List.mem_append.1 hr with h | h
    · exact f1 r h
    · exact f2 r h

/-- A request to another URL than the login endpoint is a run without `Auth`. -/
theorem clientDo_withoutAuth (s : Skedda) (w : World) (req : Request)
    (hreq : req.url ≠ Target.logins) :
    WithoutAuth s w (clientDo s w req).2.1 (clientDo s w req).2.2 := by
  unfold clientDo
  dsimp only
  split
  · exact ⟨rfl, rfl, rfl, [_], rfl, by simpa using hreq⟩
  · exact ⟨rfl, rfl, rfl, [_], rfl, by simpa using hreq⟩

/-- The method `verificationToken` never authenticates, and its errors are plain messages. -/
theorem verificationToken_withoutAuth (s : Skedda) (w : World) (domain : String) :
    WithoutAuth s w (s.verificationToken w domain).2.1 (s.verificationToken w domain).2.2 ∧
      ∀ e, (s.verificationToken w domain).1.2 = some e → ∃ msg, e = GoError.text msg := by
  unfold Skedda.verificationToken
  split
  · exact ⟨withoutAuth_refl s w, fun e he => ⟨_, (Option.some.inj he).symm⟩⟩
  · dsimp only
    have hdo := clientDo_withoutAuth s w
      { method := "GET", url := .booking domain, header := [], body := .none,
        checkRedirect := .stopAtWww, cookies := [] } (by simp)
    split
    · rename_i h
      rw [h] at hdo
      exact ⟨hdo, fun e he => ⟨_, (Option.some.inj he).symm⟩⟩
    · rename_i h
      rw [h] at hdo
      split_ifs
      · exact ⟨hdo, fun e he => ⟨_, (Option.some.inj he).symm⟩⟩
      · exact ⟨hdo, fun e he => ⟨_, (Option.some.inj he).symm⟩⟩
      · split
        · exact ⟨hdo, fun e he => ⟨_, (Option.some.inj he).symm⟩⟩
        · split
          · exact ⟨hdo, fun e he => by simp at he⟩
          · exact ⟨hdo, fun e he => ⟨_, (Option.some.inj he).symm⟩⟩

/-- An error known by its message is not `ErrCredsMissing`. -/
theorem text_not_creds (msg : String) :
    (GoError.text msg).Is GoError.ErrCredsMissing = false := by
  simp [GoError.Is]

/-- The error made from an error detail is not `ErrCredsMissing`. -/
theorem statusError_not_creds (code : Nat) (detail : String × Option GoError) :
    (statusError code detail).Is GoError.ErrCredsMissing = false := by
  unfold statusError
  split <;> simp [GoError.Is, unknownStatus]

/-- Wrapping a plain message does not give `ErrCredsMissing`. -/
theorem wrapf_text_not_creds (label msg : String) :
    (wrapf label (GoError.text msg)).Is GoError.ErrCredsMissing = false := by
  simp [GoError.Is, wrapf]

/-- The same, from the result of `c.Do(req)`. -/
theorem clientDo_withoutAuth' (s : Skedda) (w : World) (req : Request)
    (r : Except String Response) (s' : Skedda) (w' : World)
    (h : clientDo s w req = (r, s', w')) (hreq : req.url ≠ Target.logins) :
    WithoutAuth s w s' w' := by
  have := clientDo_withoutAuth s w req hreq
  rw [h] at this
  exact this

/-- The method `Venue` never authenticates and never fails with `ErrCredsMissing`. -/
theorem venue_withoutAuth (s : Skedda) (w : World) (domain : String) :
    WithoutAuth s w (s.Venue w domain).2.1 (s.Venue w domain).2.2 ∧
      ∀ v sp e, (s.Venue w domain).1 = .ret (v, sp, some e) →
        e.Is GoError.ErrCredsMissing = false := by
  unfold Skedda.Venue
  have hv := verificationToken_withoutAuth s w domain
  split
  · rename_i h
    rw [h] at hv
    obtain ⟨msg, rfl⟩ := hv.2 _ rfl
    refine ⟨hv.1, ?_⟩
    intro v sp e he
    simp only [Res.ret.injEq, Prod.mk.injEq, Option.some.injEq] at he
    rw [← he.2.2]
    exact wrapf_text_not_creds _ _
  · rename_i token s1 w1 h
    rw [h] at hv
    split
    on_goal 2 => dsimp only; split
    on_goal 3 => split_ifs
    on_goal 3 => split
    on_goal 5 => split
    on_goal 6 => split
    on_goal 7 => split
    all_goals
      refine ⟨?_, ?_⟩
      · first
        | exact hv.1
        | exact withoutAuth_trans hv.1
            (clientDo_withoutAuth' _ _ _ _ _ _ (by assumption) (by simp))
      · intro v sp e he
        first
        | simp at he; done
        | (simp only [Res.ret.injEq, Prod.mk.injEq, Option.some.injEq] at he
           rw [← he.2.2]
           first
           | exact text_not_creds _
           | exact statusError_not_creds _ _)

/-- The function `Bookings` never authenticates and never fails with `ErrCredsMissing`. -/
theorem bookings_withoutAuth (s : Skedda) (w : World) (domain : String) (from_ to_ : Time) :
    WithoutAuth s w (s.Bookings w domain from_ to_).2.1 (s.Bookings w domain from_ to_).2.2 ∧
      ∀ l e, (s.Bookings w domain from_ to_).1 = .ret (l, some e) →
        e.Is GoError.ErrCredsMissing = false := by
  unfold Skedda.Bookings
  have hv := verificationToken_withoutAuth s w domain
  split
  · rename_i h
    rw [h] at hv
    obtain ⟨msg, rfl⟩ := hv.2 _ rfl
    refine ⟨hv.1, ?_⟩
    intro l e he
    simp only [Res.ret.injEq, Prod.mk.injEq, Option.some.injEq] at he
    rw [← he.2]
    exact wrapf_text_not_creds _ _
  · rename_i token s1 w1 h
    rw [h] at hv
    split
    on_goal 2 => dsimp only; split
    on_goal 3 => split_ifs
    on_goal 3 => split
    on_goal 5 => split
    on_goal 6 => split
    all_goals
      refine ⟨?_, ?_⟩
      · first
        | exact hv.1
        | exact withoutAuth_trans hv.1
            (clientDo_withoutAuth' _ _ _ _ _ _ (by assumption) (by simp))
      · intro l e he
        first
        | simp at he; done
        | (simp only [Res.ret.injEq, Prod.mk.injEq, Option.some.injEq] at he
           rw [← he.2]
           first
           | exact text_not_creds _
           | exact statusError_not_creds _ _)

/-- The function `Book` never authenticates and never fails with `ErrCredsMissing`. -/
theorem book_withoutAuth (s : Skedda) (w : World) (domain : String) (venueID : Int)
    (spaceIDs : List Int) (title : String) (from_ to_ : Time) :
    WithoutAuth s w (s.Book w domain venueID spaceIDs title from_ to_).2.1
        (s.Book w domain venueID spaceIDs title from_ to_).2.2 ∧
      ∀ e, (s.Book w domain venueID spaceIDs title from_ to_).1 = .ret (some e) →
        e.Is GoError.ErrCredsMissing = false := by
  unfold Skedda.Book
  have hv := verificationToken_withoutAuth s w domain
  split
  · rename_i h
    rw [h] at hv
    obtain ⟨msg, rfl⟩ := hv.2 _ rfl
    refine ⟨hv.1, ?_⟩
    intro e he
    simp only [Res.ret.injEq, Option.some.injEq] at he
    rw [← he]
    exact wrapf_text_not_creds _ _
  · rename_i token s1 w1 h
    rw [h] at hv
    split
    on_goal 2 => dsimp only; split
    all_goals
      refine ⟨?_, ?_⟩
      · first
        | exact hv.1
        | exact withoutAuth_trans hv.1
            (clientDo_withoutAuth' _ _ _ _ _ _ (by assumption) (by simp))
      · intro e he
        first
        | (simp only [Res.ret.injEq, Option.some.injEq] at he
           rw [← he]
           exact text_not_creds _)
        | (unfold bookResponse at he
           split_ifs at he
           · split at he
             · simp at he
             · simp only [Res.ret.injEq, Option.some.injEq] at he
               rw [← he]
               exact statusError_not_creds _ _
           · simp at he)

/-- The function `Domains` never authenticates and never fails with `ErrCredsMissing`. -/
theorem domains_withoutAuth (s : Skedda) (w : World) (primaryDomain : String) :
    WithoutAuth s w (s.Domains w primaryDomain).2.1 (s.Domains w primaryDomain).2.2 ∧
      ∀ l e, (s.Domains w primaryDomain).1 = (l, some e) →
        e.Is GoError.ErrCredsMissing = false := by
  unfold Skedda.Domains
  have hv := verificationToken_withoutAuth s w primaryDomain
  split
  · rename_i h
    rw [h] at hv
    obtain ⟨msg, rfl⟩ := hv.2 _ rfl
    refine ⟨hv.1, ?_⟩
    intro l e he
    simp only [Prod.mk.injEq, Option.some.injEq] at he
    rw [← he.2]
    exact wrapf_text_not_creds _ _
  · rename_i token s1 w1 h
    rw [h] at hv
    split
    on_goal 2 => dsimp only; split
    on_goal 3 => split_ifs
    on_goal 4 => split
    on_goal 5 => split
    all_goals
      refine ⟨?_, ?_⟩
      · first
        | exact hv.1
        | exact withoutAuth_trans hv.1
            (clientDo_withoutAuth' _ _ _ _ _ _ (by assumption) (by simp))
      · intro l e he
        first
        | simp at he; done
        | (simp only [Prod.mk.injEq, Option.some.injEq] at he
           rw [← he.2]
           exact text_not_creds _)

/-- On an unauthenticated session with an empty credential `PrimaryDomain` fails with
`ErrCredsMissing` and sends nothing. -/
theorem primaryDomain_missing_creds (s : Skedda) (w : World) (hs : s.isAuthenticated = false)
    (h : s.username = "" ∨ s.password = "") :
    s.PrimaryDomain w = (.ret ("", some .ErrCredsMissing), s, w) := by
  have hc : s.hasCredentials = false := by
    unfold Skedda.hasCredentials
    rcases h with h | h <;> simp [h]
  simp [Skedda.PrimaryDomain, Skedda.Auth, hs, hc]

/-- With credentials and a login answered by status 200, `Auth` marks the session
authenticated, having sent the login request only. -/
theorem auth_accepted (s : Skedda) (w : World) (res : Response)
    (hs : s.isAuthenticated = false) (hu : s.username ≠ "") (hp : s.password ≠ "")
    (hrt : w.roundTrip w.sent
        { method := "POST", url := .logins, header := [("Content-Type", "application/json")],
          body := .login s.username s.password, checkRedirect := .follow,
          cookies := s.cookiejar } = .ok res)
    (hstatus : res.StatusCode = 200) :
    s.Auth w = (.ret none,
      { s with cookiejar := s.cookiejar ++ res.cookies, isAuthenticated := true },
      { w with sent := w.sent ++
          [{ method := "POST", url := .logins, header := [("Content-Type", "application/json")],
             body := .login s.username s.password, checkRedirect := .follow,
             cookies := s.cookiejar }] }) := by
  have hc : s.hasCredentials = true := by
    simp [Skedda.hasCredentials, hu, hp]
  simp [Skedda.Auth, hs, hc, clientDo, hrt, hstatus]

/-- The session after `c.Do(req)`: only the jar may have changed. -/
theorem clientDo_session (s : Skedda) (w : World) (req : Request) :
    (clientDo s w req).2.1.isAuthenticated = s.isAuthenticated ∧
      (clientDo s w req).2.1.username = s.username ∧
      (clientDo s w req).2.1.password = s.password := by
  unfold clientDo
  dsimp only
  split <;> exact ⟨rfl, rfl, rfl⟩

/-- On an authenticated session `PrimaryDomain` sends its own request and no other, and the
session stays authenticated. -/
theorem primaryDomain_authenticated (s : Skedda) (w : World) (hs : s.isAuthenticated = true) :
    (s.PrimaryDomain w).2.1.isAuthenticated = true ∧
      (s.PrimaryDomain w).2.2.sent = w.sent ++
        [{ method := "POST", url := .accountLogin,
           header := [("Content-Type", "application/x-www-form-urlencoded")],
           body := .form s.username, checkRedirect := .useLastResponse,
           cookies := s.cookiejar }] := by
  have h1 := clientDo_session s w
    { method := "POST", url := .accountLogin,
      header := [("Content-Type", "application/x-www-form-urlencoded")],
      body := .form s.username, checkRedirect := .useLastResponse, cookies := [] }
  have h2 := clientDo_world s w
    { method := "POST", url := .accountLogin,
      header := [("Content-Type", "application/x-www-form-urlencoded")],
      body := .form s.username, checkRedirect := .useLastResponse, cookies := [] }
  unfold Skedda.PrimaryDomain
  simp only [hs, Bool.not_true, Bool.false_eq_true, if_false]
  rcases hdo : clientDo s w
    { method := "POST", url := .accountLogin,
      header := [("Content-Type", "application/x-www-form-urlencoded")],
      body := .form s.username, checkRedirect := .useLastResponse, cookies := [] }
    with ⟨r, s1, w1⟩
  rw [hdo] at h1 h2
  simp only at h1 h2
  rw [hs] at h1
  cases r with
  | error err => simp [h1.1, h2]
  | ok res =>
    dsimp only
    split_ifs <;> simp [h1.1, h2]

/-- An array of error objects decodes into a `[]map[string]interface{}`. -/
theorem decodeErrorObjects_objects (rest : List JValue)
    (hrest : ∀ v ∈ rest, v = JValue.null ∨ ∃ m, v = JValue.object m ∧ storableMembers m = true) :
    ∃ os, decodeErrorObjects rest = some os := by
  induction rest with
  | nil => exact ⟨[], rfl⟩
  | cons v vs ih =>
    obtain ⟨os, hos⟩ := ih (fun u hu => hrest u (List.mem_cons_of_mem _ hu))
    rcases hrest v (List.mem_cons_self _ _) with rfl | ⟨m, rfl, hm⟩
    · exact ⟨none :: os, by simp [decodeErrorObjects, decodeErrorObject, hos]⟩
    · exact ⟨some m :: os, by simp [decodeErrorObjects, decodeErrorObject, hm, hos]⟩

/-- On an error envelope whose first error object has the string `d` as its `detail`,
`errorDetail` returns `d`. -/
theorem errorDetail_envelope (text : String) (fields : List (String × JValue))
    (rest : List JValue) (d : String)
    (hdetail : mapIndex fields "detail" = some (.string d))
    (hfields : storableMembers fields = true)
    (hrest : ∀ v ∈ rest, v = JValue.null ∨ ∃ m, v = JValue.object m ∧ storableMembers m = true) :
    errorDetail (.data text (some (.object [("errors", .array (.object fields :: rest))])))
      = .ret (d, none) := by
  obtain ⟨os, hos⟩ := decodeErrorObjects_objects rest hrest
  simp [errorDetail, unmarshalErrors, decodeErrorMembers, decodeErrorSlice, decodeErrorObjects,
    decodeErrorObject, hfields, hos, mapIndex, hdetail]

/-- Once a result in the channel carries an error, the loop of `loadFromSkedda` returns no
list and the value of the variable `err`. -/
theorem collectResults_error (err : Option GoError) (results : List Result)
    (venues : List (Option Venue)) (spaces : List Space)
    (h : ∃ r ∈ results, r.Error ≠ none) :
    collectResults err results venues spaces = (none, none, err) := by
  induction results generalizing venues spaces with
  | nil => simp at h
  | cons r rest ih =>
    unfold collectResults
    by_cases hr : r.Error = none
    · obtain ⟨r', hr', he⟩ := h
      rcases List.mem_cons.1 hr' with rfl | hmem
      · exact absurd hr he
      · simp only [hr, bne_self_eq_false, Bool.false_eq_true, if_false]
        exact ih _ _ ⟨r', hmem, he⟩
    · simp [hr]

/-- Whatever the tenants and the order of arrival: when `PrimaryDomain` and `Domains`
succeed and the call of one tenant fails, `loadFromSkedda` returns no list and a nil
error. -/
theorem loadFromSkedda_error_nil (s : Skedda) (w : World) (worker : String → Result)
    (arrival : List String → List String) (primaryDomain : String) (s1 : Skedda) (w1 : World)
    (domains : List String) (s2 : Skedda) (w2 : World) (d : String)
    (hPrimary : s.PrimaryDomain w = (.ret (primaryDomain, none), s1, w1))
    (hDomains : s1.Domains w1 primaryDomain = ((some domains, none), s2, w2))
    (hArrival : (arrival domains).Perm domains)
    (hd : d ∈ domains) (hErr : (worker d).Error ≠ none) :
    loadFromSkedda s w worker arrival = .ret (none, none, none) := by
  unfold loadFromSkedda
  simp only [hPrimary, hDomains, Option.getD_some]
  rw [collectResults_error none _ [] []
    ⟨worker d, List.mem_map.2 ⟨d, (hArrival.mem_iff).2 hd, rfl⟩, hErr⟩]

/-! ### The claims on `Bookings`, `loadFromSkedda`, `errorDetail`, `Book` and `Auth` -/

/-- For a booking with occurrences in its rule set, `add` is the overlap test on the four
times of day. -/
theorem bookingAdd_recurring (from_ to_ : Time) (b : Booking)
    (hrec : 0 < b.RecurrenceRule.All.length) :
    bookingAdd from_ to_ b =
      TimeOverlaps (Date 0 0 0 from_.Hour from_.Minute from_.Second 0)
        (Date 0 0 0 to_.Hour to_.Minute to_.Second 0)
        (Date 0 0 0 b.StartTime.Hour b.StartTime.Minute b.StartTime.Second 0)
        (Date 0 0 0 b.EndTime.Hour b.EndTime.Minute b.EndTime.Second 0) := by
  simp [bookingAdd, hrec]

/-- A list that `Bookings` returns is what its loop builds from a decoded list. -/
theorem bookings_returns (s : Skedda) (w : World) (domain : String) (from_ to_ : Time)
    (list : List Booking) (e : Option GoError)
    (h : (s.Bookings w domain from_ to_).1 = .ret (some list, e)) :
    ∃ upstream, list = bookingsLoop from_ to_ upstream [] := by
  unfold Skedda.Bookings at h
  split at h
  · simp at h
  · split at h
    · simp at h
    · dsimp only at h
      split at h
      · simp at h
      · split at h
        · split at h <;> simp at h
        · split at h
          · simp at h
          · split at h
            · simp at h
            · rename_i bodyMap _
              refine ⟨bodyMap, ?_⟩
              simp at h
              exact h.1.symm

/-- C4: when `Bookings` has decoded the upstream list, a booking with a non-empty recurrence
rule set (one for which `RecurrenceRule.All()` is not empty) is in the list that `Bookings`
returns if and only if it is in the upstream list and `TimeOverlaps` holds between the times
of day (hour, minute, second) of the window and of the booking put on one common date,
whichever date that is. So the decision is the same in any other call of `Bookings` in
which the window and the booking have the same four times of day, whatever their dates: a
recurring booking from 09:00 to 10:00 is kept for a window 09:30-10:30 and dropped for a
window 10:00-11:00. -/
theorem bookings_recurring_iff_overlap (s : Skedda) (w : World) (domain : String)
    (from_ to_ : Time) (token : String) (s1 : Skedda) (w1 : World) (res : Response)
    (s2 : Skedda) (w2 : World) (text : String) (json : Option JValue)
    (upstream : List Booking)
    (hTok : s.verificationToken w domain = ((token, none), s1, w1))
    (hDo : clientDo s1 w1
        { method := "GET", url := .bookingslists domain from_ to_,
          header := [("X-Skedda-RequestVerificationToken", token)], body := .none,
          checkRedirect := .follow, cookies := [] } = (.ok res, s2, w2))
    (hStatus : res.StatusCode = 200) (hBody : res.Body = .data text json)
    (hDecode : w2.unmarshalBookings text = .ok upstream)
    (b : Booking) (hrec : 0 < b.RecurrenceRule.All.length) :
    ∃ list : List Booking,
      (s.Bookings w domain from_ to_).1 = .ret (some list, none) ∧
      (∀ year month day : Int,
        b ∈ list ↔
          b ∈ upstream ∧
            TimeOverlaps (Date year month day from_.Hour from_.Minute from_.Second 0)
              (Date year month day to_.Hour to_.Minute to_.Second 0)
              (Date year month day b.StartTime.Hour b.StartTime.Minute b.StartTime.Second 0)
              (Date year month day b.EndTime.Hour b.EndTime.Minute b.EndTime.Second 0)
              = true) ∧
      (∀ (s' : Skedda) (w' : World) (domain' : String) (from' to' : Time) (token' : String)
          (s1' : Skedda) (w1' : World) (res' : Response) (s2' : Skedda) (w2' : World)
          (text' : String) (json' : Option JValue) (upstream' : List Booking) (b' : Booking),
        s'.verificationToken w' domain' = ((token', none), s1', w1') →
        clientDo s1' w1'
          { method := "GET", url := .bookingslists domain' from' to',
            header := [("X-Skedda-RequestVerificationToken", token')], body := .none,
            checkRedirect := .follow, cookies := [] } = (.ok res', s2', w2') →
        res'.StatusCode = 200 → res'.Body = .data text' json' →
        w2'.unmarshalBookings text' = .ok upstream' →
        0 < b'.RecurrenceRule.All.length →
        (from'.Hour = from_.Hour ∧ from'.Minute = from_.Minute ∧ from'.Second = from_.Second) →
        (to'.Hour = to_.Hour ∧ to'.Minute = to_.Minute ∧ to'.Second = to_.Second) →
        (b'.StartTime.Hour = b.StartTime.Hour ∧ b'.StartTime.Minute = b.StartTime.Minute ∧
          b'.StartTime.Second = b.StartTime.Second) →
        (b'.EndTime.Hour = b.EndTime.Hour ∧ b'.EndTime.Minute = b.EndTime.Minute ∧
          b'.EndTime.Second = b.EndTime.Second) →
        b ∈ upstream → b' ∈ upstream' →
        ∃ list' : List Booking,
          (s'.Bookings w' domain' from' to').1 = .ret (some list', none) ∧
          (b' ∈ list' ↔ b ∈ list)) ∧
      ((b.StartTime.Hour = 9 ∧ b.StartTime.Minute = 0 ∧ b.StartTime.Second = 0) →
        (b.EndTime.Hour = 10 ∧ b.EndTime.Minute = 0 ∧ b.EndTime.Second = 0) →
        ((from_.Hour = 9 ∧ from_.Minute = 30 ∧ from_.Second = 0) →
          (to_.Hour = 10 ∧ to_.Minute = 30 ∧ to_.Second = 0) → (b ∈ list ↔ b ∈ upstream)) ∧
        ((from_.Hour = 10 ∧ from_.Minute = 0 ∧ from_.Second = 0) →
          (to_.Hour = 11 ∧ to_.Minute = 0 ∧ to_.Second = 0) → b ∉ list)) := by
  refine ⟨bookingsLoop from_ to_ upstream [], ?_, ?_, ?_, ?_⟩
  · rw [bookings_ok s w domain from_ to_ token s1 w1 res s2 w2 text json upstream hTok hDo
      hStatus hBody hDecode]
  · intro year month day
    rw [bookingsLoop_eq, List.nil_append, List.mem_filter, bookingAdd_recurring from_ to_ b hrec,
      timeOverlaps_common_date year month day]
  · intro s' w' domain' from' to' token' s1' w1' res' s2' w2' text' json' upstream' b'
      hTok' hDo' hStatus' hBody' hDecode' hrec' hf ht hs he hb hb'
    refine ⟨bookingsLoop from' to' upstream' [], ?_, ?_⟩
    · rw [bookings_ok s' w' domain' from' to' token' s1' w1' res' s2' w2' text' json'
        upstream' hTok' hDo' hStatus' hBody' hDecode']
    · rw [bookingsLoop_eq, bookingsLoop_eq, List.nil_append, List.nil_append, List.mem_filter,
        List.mem_filter, bookingAdd_recurring from_ to_ b hrec,
        bookingAdd_recurring from' to' b' hrec', hf.1, hf.2.1, hf.2.2, ht.1, ht.2.1,
        ht.2.2, hs.1, hs.2.1, hs.2.2, he.1, he.2.1, he.2.2]
      simp [hb, hb']
  · intro hs he
    rw [bookingsLoop_eq, List.nil_append, List.mem_filter, bookingAdd_recurring from_ to_ b hrec,
      hs.1, hs.2.1, hs.2.2, he.1, he.2.1, he.2.2]
    constructor
    · intro hf ht
      rw [hf.1, hf.2.1, hf.2.2, ht.1, ht.2.1, ht.2.2]
      have : TimeOverlaps (Date 0 0 0 9 30 0 0) (Date 0 0 0 10 30 0 0) (Date 0 0 0 9 0 0 0)
          (Date 0 0 0 10 0 0 0) = true := by decide
      simp [this]
    · intro hf ht
      rw [hf.1, hf.2.1, hf.2.2, ht.1, ht.2.1, ht.2.2]
      have : TimeOverlaps (Date 0 0 0 10 0 0 0) (Date 0 0 0 11 0 0 0) (Date 0 0 0 9 0 0 0)
          (Date 0 0 0 10 0 0 0) = false := by decide
      simp [this]

/-- Witness of C4: the sample tenant sends `standup` (recurring, 09:00 to 10:00, canonical
instance in 1991), `visit` and `review`. `Bookings` keeps `standup` for the window
09:30-10:30 of 1 May 2024 and drops it for the window 10:00-11:00 of 9 January 2031. -/
theorem bookings_recurring_iff_overlap_witness :
    0 < standup.RecurrenceRule.All.length ∧
    (∃ list : List Booking,
      (New.Bookings sampleWorld "acme" (Date 2024 5 1 9 30 0 0) (Date 2024 5 1 10 30 0 0)).1
        = .ret (some list, none) ∧ standup ∈ list) ∧
    (∃ list : List Booking,
      (New.Bookings sampleWorld "acme" (Date 2031 1 9 10 0 0 0) (Date 2031 1 9 11 0 0 0)).1
        = .ret (some list, none) ∧ standup ∉ list) :=
  ⟨by decide,
    (bookings_recurring_iff_overlap New sampleWorld "acme" (Date 2024 5 1 9 30 0 0)
      (Date 2024 5 1 10 30 0 0) "tok" _ _ _ _ _ "bookingslists" none [standup, visit, review]
      rfl rfl rfl rfl rfl standup (by decide)).imp
      (fun _ h => ⟨h.1, ((h.2.2.2 (by decide) (by decide)).1 (by decide) (by decide)).2
        (by decide)⟩),
    (bookings_recurring_iff_overlap New sampleWorld "acme" (Date 2031 1 9 10 0 0 0)
      (Date 2031 1 9 11 0 0 0) "tok" _ _ _ _ _ "bookingslists" none [standup, visit, review]
      rfl rfl rfl rfl rfl standup (by decide)).imp
      (fun _ h => ⟨h.1, (h.2.2.2 (by decide) (by decide)).2 (by decide) (by decide)⟩)⟩

/-- C5: when the upstream list is decoded, the list that `Bookings` returns is a sublist of
it (nothing added, nothing duplicated, the order kept) that contains every booking without
recurrence, whatever the window; a booking that is missing is a recurring one. -/
theorem bookings_keeps_upstream_order (s : Skedda) (w : World) (domain : String)
    (from_ to_ : Time) (token : String) (s1 : Skedda) (w1 : World) (res : Response)
    (s2 : Skedda) (w2 : World) (text : String) (json : Option JValue)
    (upstream : List Booking)
    (hTok : s.verificationToken w domain = ((token, none), s1, w1))
    (hDo : clientDo s1 w1
        { method := "GET", url := .bookingslists domain from_ to_,
          header := [("X-Skedda-RequestVerificationToken", token)], body := .none,
          checkRedirect := .follow, cookies := [] } = (.ok res, s2, w2))
    (hStatus : res.StatusCode = 200) (hBody : res.Body = .data text json)
    (hDecode : w2.unmarshalBookings text = .ok upstream) :
    ∃ list : List Booking,
      (s.Bookings w domain from_ to_).1 = .ret (some list, none) ∧
      list.Sublist upstream ∧
      (upstream.filter (fun b => decide (b.RecurrenceRule.All.length = 0))).Sublist list ∧
      (∀ b ∈ upstream, b.RecurrenceRule.All.length = 0 → b ∈ list) ∧
      (∀ b ∈ upstream, b ∉ list → 0 < b.RecurrenceRule.All.length) := by
  refine ⟨bookingsLoop from_ to_ upstream [], ?_, ?_, ?_, ?_, ?_⟩
  · rw [bookings_ok s w domain from_ to_ token s1 w1 res s2 w2 text json upstream hTok hDo
      hStatus hBody hDecode]
  · rw [bookingsLoop_eq, List.nil_append]
    exact List.filter_sublist _
  · rw [bookingsLoop_eq, List.nil_append]
    apply List.monotone_filter_right
    intro b hb
    have hb' : b.RecurrenceRule.All.length = 0 := by simpa using hb
    simp [bookingAdd, hb']
  · intro b hb h0
    rw [bookingsLoop_eq, List.nil_append, List.mem_filter]
    exact ⟨hb, by simp [bookingAdd, h0]⟩
  · intro b hb hnot
    rw [bookingsLoop_eq, List.nil_append, List.mem_filter] at hnot
    by_contra h0
    apply hnot
    have h0' : b.RecurrenceRule.All.length = 0 := by omega
    exact ⟨hb, by simp [bookingAdd, h0']⟩

/-- Witness of C5: the sample tenant, whose upstream list is `standup`, `visit`, `review`,
asked for the window 10:00-11:00 of 1 May 2024. -/
theorem bookings_keeps_upstream_order_witness :
    ∃ list : List Booking,
      (New.Bookings sampleWorld "acme" (Date 2024 5 1 10 0 0 0) (Date 2024 5 1 11 0 0 0)).1
        = .ret (some list, none) ∧
      list.Sublist [standup, visit, review] ∧
      ([standup, visit, review].filter
        (fun b => decide (b.RecurrenceRule.All.length = 0))).Sublist list ∧
      (∀ b ∈ [standup, visit, review], b.RecurrenceRule.All.length = 0 → b ∈ list) ∧
      (∀ b ∈ [standup, visit, review], b ∉ list → 0 < b.RecurrenceRule.All.length) :=
  bookings_keeps_upstream_order New sampleWorld "acme" (Date 2024 5 1 10 0 0 0)
    (Date 2024 5 1 11 0 0 0) "tok" _ _ _ _ _ "bookingslists" none [standup, visit, review]
    rfl rfl rfl rfl rfl

/-- C6, the code at the failing input: over the tenants `a`, `b`, `c`, of which the call of
`b` fails, `loadFromSkedda` returns no venue list, no space list and a nil error: the loop
returns the variable `err` of `Domains`, which is nil there, not `result.Error`. -/
theorem loadFromSkedda_swallows_error :
    (sampleWorker "b").Error = some (.text "no venue found") ∧
    (Skedda.Domains ((NewWithCreds "u" "p").PrimaryDomain sampleWorld).2.1
        ((NewWithCreds "u" "p").PrimaryDomain sampleWorld).2.2 "acme").1
      = (some ["a", "b", "c"], none) ∧
    loadFromSkedda (NewWithCreds "u" "p") sampleWorld sampleWorker id
      = .ret (none, none, none) ∧
    loadFromSkedda (NewWithCreds "u" "p") sampleWorld sampleWorker List.reverse
      = .ret (none, none, none) := by
  refine ⟨by decide, by decide, by decide, by decide⟩

/-- C7, the code at the failing inputs: `errorDetail` panics on an object without an
`errors` key, on an empty `errors` array and on a `detail` that is not a string; it
returns an error on a body that is not JSON and on an element without `detail`. -/
theorem errorDetail_panics :
    errorDetail (.data "\x7b\x7d" (some (.object []))) = .panic (.indexOutOfRange 0 0) ∧
    errorDetail (.data "\x7b\"errors\":[]\x7d" (some (.object [("errors", .array [])])))
      = .panic (.indexOutOfRange 0 0) ∧
    errorDetail (.data "\x7b\"errors\":[\x7b\"detail\":42\x7d]\x7d"
        (some (.object [("errors", .array [.object [("detail", .number "42" true)]])])))
      = .panic .interfaceConversion ∧
    errorDetail (.data "<html>" none)
      = .ret ("", some (.text "invalid character looking for beginning of value")) ∧
    errorDetail (.data "\x7b\"errors\":[\x7b\x7d]\x7d"
        (some (.object [("errors", .array [.object []])])))
      = .ret ("", some (.text "unknown error")) := by
  decide

/-- An element of the `errors` array decodes into a `map[string]interface{}` exactly when
it is `null` or an object whose values can be stored. -/
theorem decodeErrorObject_isSome (v : JValue) :
    (decodeErrorObject v).isSome = true ↔
      (v = JValue.null ∨ ∃ m, v = JValue.object m ∧ storableMembers m = true) := by
  cases v <;> simp [decodeErrorObject]

/-- An array with an element that is neither `null` nor an object that can be stored does
not decode into a `[]map[string]interface{}`. -/
theorem decodeErrorObjects_none (rest : List JValue)
    (hrest : ¬ ∀ v ∈ rest, v = JValue.null ∨ ∃ m, v = JValue.object m ∧ storableMembers m = true) :
    decodeErrorObjects rest = none := by
  induction rest with
  | nil => simp at hrest
  | cons v vs ih =>
    unfold decodeErrorObjects
    by_cases hv : v = JValue.null ∨ ∃ m, v = JValue.object m ∧ storableMembers m = true
    · have hvs : ¬ ∀ u ∈ vs, u = JValue.null ∨
          ∃ m, u = JValue.object m ∧ storableMembers m = true := by
        intro hall
        apply hrest
        intro u hu
        rcases List.mem_cons.1 hu with rfl | hu
        · exact hv
        · exact hall u hu
      rw [ih hvs]
      split <;> simp_all
    · have : decodeErrorObject v = none := by
        rw [← decodeErrorObject_isSome] at hv
        simpa using hv
      rw [this]

/-- On a document that `json.Unmarshal` stores and whose `errors` begin with an object
that has the string `d` as its `detail`, `errorDetail` returns `d`. -/
theorem errorDetail_stored (text : String) (doc : JValue)
    (resBody : List (String × List (Option (List (String × JValue)))))
    (fields : List (String × JValue)) (rest : List (Option (List (String × JValue))))
    (d : String) (hdoc : unmarshalErrors doc = some resBody)
    (herrors : mapIndex resBody "errors" = some (some fields :: rest))
    (hdetail : mapIndex fields "detail" = some (.string d)) :
    errorDetail (.data text (some doc)) = .ret (d, none) := by
  simp [errorDetail, hdoc, herrors, hdetail]

/-- On a document that `json.Unmarshal` refuses, `errorDetail` returns an error. -/
theorem errorDetail_refused (text : String) (doc : JValue) (hdoc : unmarshalErrors doc = none) :
    errorDetail (.data text (some doc))
      = .ret ("", some (.text "json: cannot unmarshal value into Go value")) := by
  simp [errorDetail, hdoc]

/-- An envelope with a value that cannot be stored is refused by `json.Unmarshal`. -/
theorem unmarshalErrors_envelope_none (fields : List (String × JValue)) (rest : List JValue)
    (h : ¬ (storableMembers fields = true ∧
      ∀ v ∈ rest, v = JValue.null ∨ ∃ m, v = JValue.object m ∧ storableMembers m = true)) :
    unmarshalErrors (.object [("errors", .array (.object fields :: rest))]) = none := by
  simp only [unmarshalErrors, decodeErrorMembers, decodeErrorSlice, decodeErrorObjects,
    decodeErrorObject]
  by_cases hf : storableMembers fields = true
  · rw [decodeErrorObjects_none rest (fun hall => h ⟨hf, hall⟩)]
    simp [hf]
  · simp [hf]

/-- C8 as the specification states it fails: the body
`{"errors":[{"detail":"Space unavailable","retry":1e999}]}` has the shape of the claim, and
so has `{"errors":[{"detail":"Space unavailable"},"oops"]}`; `json.Unmarshal` refuses both,
and `Book` fails with `unknown status: 422`. -/
theorem book_detail_lost :
    unstorableDetail.StatusCode = 422 ∧
    ((NewWithCreds "u" "p").Book (sampleWorldWith (.bookings "acme") unstorableDetail) "acme"
      7 [1] "demo" (Date 2024 5 1 10 0 0 0) (Date 2024 5 1 11 0 0 0)).1
      = .ret (some (.text "unknown status: 422")) ∧
    ((NewWithCreds "u" "p").Book (sampleWorldWith (.bookings "acme") strayElement) "acme"
      7 [1] "demo" (Date 2024 5 1 10 0 0 0) (Date 2024 5 1 11 0 0 0)).1
      = .ret (some (.text "unknown status: 422")) := by
  refine ⟨rfl, by decide, by decide⟩

/-- C8, amended: the response to the request of `Book` has another status than 200 and a
body that is a JSON document. When `json.Unmarshal` stores the document in the
`map[string][]map[string]interface{}` and the `errors` of the map begin with an object that
has the string `d` as its `detail`, `Book` fails with an error whose message is `d`; when
`json.Unmarshal` refuses the document, `Book` fails with `unknown status: <code>`. For the
envelope `{"errors":[{"detail": d, ...}, ...]}` this is: the message is `d` when the error
object holds no number out of the range of `float64` and every further element is `null` or
such an object, and `unknown status: <code>` otherwise. -/
theorem book_error_detail (s : Skedda) (w : World) (domain : String) (venueID : Int)
    (spaceIDs : List Int) (title : String) (from_ to_ : Time)
    (token : String) (s1 : Skedda) (w1 : World) (res : Response) (s2 : Skedda) (w2 : World)
    (text : String) (doc : JValue)
    (hTok : s.verificationToken w domain = ((token, none), s1, w1))
    (hDo : clientDo s1 w1
        { method := "POST", url := .bookings domain,
          header := [("X-Skedda-RequestVerificationToken", token),
            ("Content-Type", "application/json")],
          body := .booking (from_.Truncate (1 * Minute)) (to_.Truncate (1 * Minute)) title
            venueID spaceIDs,
          checkRedirect := .follow, cookies := [] } = (.ok res, s2, w2))
    (hstatus : res.StatusCode ≠ 200)
    (hbody : res.Body = .data text (some doc)) :
    (∀ (resBody : List (String × List (Option (List (String × JValue)))))
        (fields : List (String × JValue)) (rest : List (Option (List (String × JValue))))
        (d : String),
      unmarshalErrors doc = some resBody →
      mapIndex resBody "errors" = some (some fields :: rest) →
      mapIndex fields "detail" = some (.string d) →
      ∃ e : GoError,
        (s.Book w domain venueID spaceIDs title from_ to_).1 = .ret (some e) ∧ e.Error = d) ∧
    (unmarshalErrors doc = none →
      ∃ e : GoError,
        (s.Book w domain venueID spaceIDs title from_ to_).1 = .ret (some e) ∧
        e.Error = "unknown status: " ++ toString res.StatusCode) ∧
    (∀ (fields : List (String × JValue)) (rest : List JValue) (d : String),
      doc = .object [("errors", .array (.object fields :: rest))] →
      mapIndex fields "detail" = some (.string d) →
      ((storableMembers fields = true ∧
          ∀ v ∈ rest, v = JValue.null ∨ ∃ m, v = JValue.object m ∧ storableMembers m = true) →
        ∃ e : GoError,
          (s.Book w domain venueID spaceIDs title from_ to_).1 = .ret (some e) ∧
          e.Error = d) ∧
      (¬ (storableMembers fields = true ∧
          ∀ v ∈ rest, v = JValue.null ∨ ∃ m, v = JValue.object m ∧ storableMembers m = true) →
        ∃ e : GoError,
          (s.Book w domain venueID spaceIDs title from_ to_).1 = .ret (some e) ∧
          e.Error = "unknown status: " ++ toString res.StatusCode)) := by
  have hurl := verificationToken_ok_url s w domain token s1 w1 hTok
  have hbook : (s.Book w domain venueID spaceIDs title from_ to_).1 = bookResponse res := by
    unfold Skedda.Book
    simp only [hTok, hurl, hDo]
  have hstored : ∀ d : String, errorDetail res.Body = .ret (d, none) →
      ∃ e : GoError,
        (s.Book w domain venueID spaceIDs title from_ to_).1 = .ret (some e) ∧
        e.Error = d := by
    intro d hd
    refine ⟨.text d, ?_, rfl⟩
    rw [hbook]
    simp [bookResponse, hstatus, hd, statusError]
  have hrefused : unmarshalErrors doc = none →
      ∃ e : GoError,
        (s.Book w domain venueID spaceIDs title from_ to_).1 = .ret (some e) ∧
        e.Error = "unknown status: " ++ toString res.StatusCode := by
    intro hdoc
    refine ⟨unknownStatus res.StatusCode, ?_, rfl⟩
    rw [hbook]
    simp [bookResponse, hstatus, hbody, errorDetail_refused text doc hdoc, statusError]
  refine ⟨?_, hrefused, ?_⟩
  · intro resBody fields rest d hdoc herrors hdetail
    apply hstored
    rw [hbody]
    exact errorDetail_stored text doc resBody fields rest d hdoc herrors hdetail
  · intro fields rest d hdoc hdetail
    subst hdoc
    constructor
    · rintro ⟨hfields, hrest⟩
      apply hstored
      rw [hbody]
      exact errorDetail_envelope text fields rest d hdetail hfields hrest
    · intro hbad
      exact hrefused (unmarshalErrors_envelope_none fields rest hbad)

/-- Witness of C8, amended: the sample server answers the booking request with status 422
and the detail `Space unavailable`, which is the message of the error of `Book`; with a
number out of range next to the detail, the message is `unknown status: 422`. -/
theorem book_error_detail_witness :
    spaceUnavailable.StatusCode = 422 ∧
    (∃ e : GoError,
      ((NewWithCreds "u" "p").Book sampleWorld "acme" 7 [1] "demo"
        (Date 2024 5 1 10 0 0 0) (Date 2024 5 1 11 0 0 0)).1 = .ret (some e) ∧
      e.Error = "Space unavailable") ∧
    (∃ e : GoError,
      ((NewWithCreds "u" "p").Book (sampleWorldWith (.bookings "acme") unstorableDetail)
        "acme" 7 [1] "demo" (Date 2024 5 1 10 0 0 0) (Date 2024 5 1 11 0 0 0)).1
        = .ret (some e) ∧
      e.Error = "unknown status: " ++ toString unstorableDetail.StatusCode) :=
  ⟨rfl,
    ((book_error_detail (NewWithCreds "u" "p") sampleWorld "acme" 7 [1] "demo"
      (Date 2024 5 1 10 0 0 0) (Date 2024 5 1 11 0 0 0) "tok" _ _ spaceUnavailable _ _
      "\x7b\"errors\":[\x7b\"detail\":\"Space unavailable\"\x7d]\x7d"
      (.object [("errors", .array [.object [("detail", .string "Space unavailable")]])])
      rfl rfl (by decide) rfl).2.2
      [("detail", .string "Space unavailable")] [] "Space unavailable" rfl rfl).1
      ⟨rfl, by simp⟩,
    ((book_error_detail (NewWithCreds "u" "p")
      (sampleWorldWith (.bookings "acme") unstorableDetail) "acme" 7 [1] "demo"
      (Date 2024 5 1 10 0 0 0) (Date 2024 5 1 11 0 0 0) "tok" _ _ unstorableDetail _ _
      "\x7b\"errors\":[\x7b\"detail\":\"Space unavailable\",\"retry\":1e999\x7d]\x7d"
      (.object [("errors", .array [.object [("detail", .string "Space unavailable"),
        ("retry", .number "1e999" false)]])])
      rfl rfl (by decide) rfl).2.2
      [("detail", .string "Space unavailable"), ("retry", .number "1e999" false)] []
      "Space unavailable" rfl rfl).2
      (fun h => absurd h.1 (by decide))⟩

/-- C9 as the specification states it fails: on a session without credentials that is not
authenticated, `Bookings` and `Venue` succeed against the sample server; `Bookings` leaves
the session unauthenticated and sends the token request and its own request, no login. -/
theorem bookings_without_auth :
    New.isAuthenticated = false ∧ New.username = "" ∧ New.password = "" ∧
    (New.Bookings sampleWorld "acme" (Date 2024 5 1 10 0 0 0) (Date 2024 5 1 11 0 0 0)).1
      = .ret (some [visit, review], none) ∧
    (New.Bookings sampleWorld "acme" (Date 2024 5 1 10 0 0 0)
      (Date 2024 5 1 11 0 0 0)).2.1.isAuthenticated = false ∧
    (New.Bookings sampleWorld "acme" (Date 2024 5 1 10 0 0 0)
      (Date 2024 5 1 11 0 0 0)).2.2.sent.map (fun r => r.url)
      = [.booking "acme",
         .bookingslists "acme" (Date 2024 5 1 10 0 0 0) (Date 2024 5 1 11 0 0 0)] ∧
    (New.Venue sampleWorld "acme").1 = .ret (some sampleVenue, some sampleSpaces, none) := by
  decide

/-- C9, amended: on a session that is not authenticated, `PrimaryDomain` first performs
`Auth`: with an empty credential it fails with `ErrCredsMissing` and sends nothing; with
credentials and a login answered by status 200 it goes on as on the authenticated session,
so that the session ends authenticated and the login request precedes its own request.
`Domains`, `Venue`, `Bookings` and `Book` do not perform `Auth`: they leave the flag and the
credentials as they are, send no login request and never fail with `ErrCredsMissing`. -/
theorem auth_only_in_primaryDomain (s : Skedda) (w : World) (hs : s.isAuthenticated = false) :
    ((s.username = "" ∨ s.password = "") →
      s.PrimaryDomain w = (.ret ("", some .ErrCredsMissing), s, w)) ∧
    (∀ res : Response, s.username ≠ "" → s.password ≠ "" →
      w.roundTrip w.sent
        { method := "POST", url := .logins, header := [("Content-Type", "application/json")],
          body := .login s.username s.password, checkRedirect := .follow,
          cookies := s.cookiejar } = .ok res →
      res.StatusCode = 200 →
      s.PrimaryDomain w =
        Skedda.PrimaryDomain
          { s with cookiejar := s.cookiejar ++ res.cookies, isAuthenticated := true }
          { w with sent := w.sent ++
              [{ method := "POST", url := .logins,
                 header := [("Content-Type", "application/json")],
                 body := .login s.username s.password, checkRedirect := .follow,
                 cookies := s.cookiejar }] } ∧
      (s.PrimaryDomain w).2.1.isAuthenticated = true ∧
      (s.PrimaryDomain w).2.2.sent = w.sent ++
        [{ method := "POST", url := .logins, header := [("Content-Type", "application/json")],
           body := .login s.username s.password, checkRedirect := .follow,
           cookies := s.cookiejar },
         { method := "POST", url := .accountLogin,
           header := [("Content-Type", "application/x-www-form-urlencoded")],
           body := .form s.username, checkRedirect := .useLastResponse,
           cookies := s.cookiejar ++ res.cookies }]) ∧
    (∀ primaryDomain : String,
      WithoutAuth s w (s.Domains w primaryDomain).2.1 (s.Domains w primaryDomain).2.2 ∧
      ∀ l e, (s.Domains w primaryDomain).1 = (l, some e) →
        e.Is GoError.ErrCredsMissing = false) ∧
    (∀ domain : String,
      WithoutAuth s w (s.Venue w domain).2.1 (s.Venue w domain).2.2 ∧
      ∀ v sp e, (s.Venue w domain).1 = .ret (v, sp, some e) →
        e.Is GoError.ErrCredsMissing = false) ∧
    (∀ (domain : String) (from_ to_ : Time),
      WithoutAuth s w (s.Bookings w domain from_ to_).2.1 (s.Bookings w domain from_ to_).2.2 ∧
      ∀ l e, (s.Bookings w domain from_ to_).1 = .ret (l, some e) →
        e.Is GoError.ErrCredsMissing = false) ∧
    (∀ (domain : String) (venueID : Int) (spaceIDs : List Int) (title : String)
        (from_ to_ : Time),
      WithoutAuth s w (s.Book w domain venueID spaceIDs title from_ to_).2.1
        (s.Book w domain venueID spaceIDs title from_ to_).2.2 ∧
      ∀ e, (s.Book w domain venueID spaceIDs title from_ to_).1 = .ret (some e) →
        e.Is GoError.ErrCredsMissing = false) := by
  refine ⟨primaryDomain_missing_creds s w hs, ?_, domains_withoutAuth s w,
    venue_withoutAuth s w, bookings_withoutAuth s w, book_withoutAuth s w⟩
  intro res hu hp hrt hstatus
  have hauth := auth_accepted s w res hs hu hp hrt hstatus
  have hstep : s.PrimaryDomain w =
      Skedda.PrimaryDomain
        { s with cookiejar := s.cookiejar ++ res.cookies, isAuthenticated := true }
        { w with sent := w.sent ++
            [{ method := "POST", url := .logins,
               header := [("Content-Type", "application/json")],
               body := .login s.username s.password, checkRedirect := .follow,
               cookies := s.cookiejar }] } := by
    conv_lhs => unfold Skedda.PrimaryDomain
    conv_rhs => unfold Skedda.PrimaryDomain
    simp only [hs, hauth]
    simp
  refine ⟨hstep, ?_⟩
  rw [hstep]
  have := primaryDomain_authenticated
    { s with cookiejar := s.cookiejar ++ res.cookies, isAuthenticated := true }
    { w with sent := w.sent ++
        [{ method := "POST", url := .logins,
           header := [("Content-Type", "application/json")],
           body := .login s.username s.password, checkRedirect := .follow,
           cookies := s.cookiejar }] } rfl
  refine ⟨this.1, ?_⟩
  rw [this.2]
  simp

/-- Witness of C9, amended: against the sample server, `PrimaryDomain` on the session
without credentials fails with `ErrCredsMissing` and changes nothing; on the session with
credentials it logs in, then sends its own request, and returns the tenant `acme`. -/
theorem auth_only_in_primaryDomain_witness :
    New.isAuthenticated = false ∧
    New.PrimaryDomain sampleWorld = (.ret ("", some .ErrCredsMissing), New, sampleWorld) ∧
    ((NewWithCreds "u" "p").PrimaryDomain sampleWorld).2.1.isAuthenticated = true ∧
    ((NewWithCreds "u" "p").PrimaryDomain sampleWorld).2.2.sent.map (fun r => r.url)
      = [.logins, .accountLogin] ∧
    ((NewWithCreds "u" "p").PrimaryDomain sampleWorld).1 = .ret ("acme", none) :=
  ⟨rfl, (auth_only_in_primaryDomain New sampleWorld rfl).1 (Or.inl rfl),
    ((auth_only_in_primaryDomain (NewWithCreds "u" "p") sampleWorld rfl).2.1
      _ (by decide) (by decide) rfl rfl).2.1,
    by rw [((auth_only_in_primaryDomain (NewWithCreds "u" "p") sampleWorld rfl).2.1
      _ (by decide) (by decide) rfl rfl).2.2]; rfl,
    by decide⟩

/-- C10: `Auth` sends no request and leaves the session as it is in two cases: on an
authenticated session it returns nil, so that an `Auth` after one that returned nil is a
no-op; on an unauthenticated session of which the username or the password is empty it
returns `ErrCredsMissing`, and the session stays unauthenticated. -/
theorem auth_noop (s : Skedda) (w : World) :
    (s.isAuthenticated = true → s.Auth w = (.ret none, s, w)) ∧
    (s.isAuthenticated = false → (s.username = "" ∨ s.password = "") →
      s.Auth w = (.ret (some .ErrCredsMissing), s, w)) ∧
    (∀ (s' : Skedda) (w' : World), s.Auth w = (.ret none, s', w') →
      s'.Auth w' = (.ret none, s', w')) := by
  refine ⟨?_, ?_, ?_⟩
  · intro h
    simp [Skedda.Auth, h]
  · intro hs h
    have hc : s.hasCredentials = false := by
      unfold Skedda.hasCredentials
      rcases h with h | h <;> simp [h]
    simp [Skedda.Auth, hs, hc]
  · intro s' w' h
    have hs' : s'.isAuthenticated = true := by
      unfold Skedda.Auth at h
      split_ifs at h with h1 h2
      · simp only [Prod.mk.injEq, true_and] at h
        rw [← h.1]
        exact h1
      · simp at h
      · dsimp only at h
        split at h
        · simp at h
        · split_ifs at h
          · split at h
            · simp at h
            · simp at h
          · simp only [Prod.mk.injEq, true_and] at h
            rw [← h.1]
    simp [Skedda.Auth, hs']

/-- Witness of C10: the session without credentials, and a session already authenticated;
after a login accepted by the sample server a second `Auth` changes nothing. -/
theorem auth_noop_witness :
    New.Auth sampleWorld = (.ret (some .ErrCredsMissing), New, sampleWorld) ∧
    Skedda.Auth { NewWithCreds "u" "p" with isAuthenticated := true } sampleWorld
      = (.ret none, { NewWithCreds "u" "p" with isAuthenticated := true }, sampleWorld) ∧
    Skedda.Auth ((NewWithCreds "u" "p").Auth sampleWorld).2.1
        ((NewWithCreds "u" "p").Auth sampleWorld).2.2
      = (.ret none, ((NewWithCreds "u" "p").Auth sampleWorld).2.1,
          ((NewWithCreds "u" "p").Auth sampleWorld).2.2) :=
  ⟨(auth_noop New sampleWorld).2.1 rfl (Or.inl rfl),
    (auth_noop { NewWithCreds "u" "p" with isAuthenticated := true } sampleWorld).1 rfl,
    (auth_noop (NewWithCreds "u" "p") sampleWorld).2.2 _ _ rfl⟩

/-! ### The claims on `Venue`, windows across midnight, and the closed form -/

/-- The loop of `Venue` appends the decoded spaces, in order. -/
theorem venueSpacesLoop_eq (upstream spaces : List Space) :
    venueSpacesLoop upstream spaces = spaces ++ upstream := by
  induction upstream generalizing spaces with
  | nil => simp [venueSpacesLoop]
  | cons sp rest ih => simp [venueSpacesLoop, ih]

/-- C16: when the response to `Venue` has status 200 and its body decodes into the venues
`venues` and the spaces `spaces`, `Venue` fails with the error `no venue found` if and
only if `venues` does not have exactly one element; when it is the one venue `venue`,
`Venue` returns `venue` and `spaces`, all of them in upstream order, with a nil error. -/
theorem venue_exactly_one (s : Skedda) (w : World) (domain : String)
    (token : String) (s1 : Skedda) (w1 : World) (res : Response) (s2 : Skedda) (w2 : World)
    (text : String) (json : Option JValue) (venues : List Venue) (spaces : List Space)
    (hTok : s.verificationToken w domain = ((token, none), s1, w1))
    (hDo : clientDo s1 w1
        { method := "GET", url := .webs domain,
          header := [("X-Skedda-RequestVerificationToken", token)], body := .none,
          checkRedirect := .follow, cookies := [] } = (.ok res, s2, w2))
    (hStatus : res.StatusCode = 200) (hBody : res.Body = .data text json)
    (hDecode : w2.unmarshalVenue text = .ok (venues, spaces)) :
    ((s.Venue w domain).1 = .ret (none, none, some (.text "no venue found")) ↔
      venues.length ≠ 1) ∧
    (∀ venue : Venue, venues = [venue] →
      (s.Venue w domain).1 = .ret (some venue, some spaces, none)) := by
  have hurl := verificationToken_ok_url s w domain token s1 w1 hTok
  unfold Skedda.Venue
  simp only [hTok, hurl, hDo, hStatus, hBody, hDecode]
  match venues with
  | [] => simp
  | [v] => simp [venueSpacesLoop_eq]
  | _ :: _ :: _ => simp

/-- Witness of C16: the sample tenant has one venue and two spaces; a tenant whose body
decodes into two venues gives `no venue found`. -/
theorem venue_exactly_one_witness :
    (New.Venue sampleWorld "acme").1 = .ret (some sampleVenue, some sampleSpaces, none) ∧
    (New.Venue { sampleWorld with
        unmarshalVenue := fun _ => .ok ([sampleVenue, sampleVenue], sampleSpaces) } "acme").1
      = .ret (none, none, some (.text "no venue found")) :=
  ⟨(venue_exactly_one New sampleWorld "acme" "tok" _ _ _ _ _ "webs" none [sampleVenue]
      sampleSpaces rfl rfl rfl rfl rfl).2 sampleVenue rfl,
    (venue_exactly_one New
      { sampleWorld with
        unmarshalVenue := fun _ => .ok ([sampleVenue, sampleVenue], sampleSpaces) }
      "acme" "tok" _ _ _ _ _ "webs" none [sampleVenue, sampleVenue] sampleSpaces
      rfl rfl rfl rfl rfl).1.2 (by decide)⟩

/-- The time of day put on the date of `Bookings` is that many seconds after its
midnight. -/
theorem timeOfDay_date (t : Time) :
    (Date 0 0 0 t.Hour t.Minute t.Second 0).unixNano
      = (Date 0 0 0 0 0 0 0).unixNano + timeOfDay t * 1000000000 := by
  rw [date_unixNano]
  rfl

/-- A recurring booking is not added by the loop of `Bookings` when a start is later in
the day than its end. -/
theorem bookingAdd_across_midnight (from_ to_ : Time) (b : Booking)
    (hrec : 0 < b.RecurrenceRule.All.length)
    (h : timeOfDay to_ < timeOfDay from_ ∨ timeOfDay b.EndTime < timeOfDay b.StartTime) :
    bookingAdd from_ to_ b = false := by
  rw [bookingAdd_recurring from_ to_ b hrec, ← Bool.not_eq_true, timeOverlaps_closed]
  simp only [timeOfDay_date]
  omega

/-- C17: a recurring booking is excluded by `Bookings` when the time of day (hour, minute,
second) of the start of the window is later than that of its end, or when the time of day
of the start of the booking is later than that of its end, whatever the other interval is:
when `Bookings` has decoded the upstream list, the list it returns does not hold the
booking, and no call of `Bookings` with that window returns a list that holds it. -/
theorem bookings_excludes_across_midnight (s : Skedda) (w : World) (domain : String)
    (from_ to_ : Time) (token : String) (s1 : Skedda) (w1 : World) (res : Response)
    (s2 : Skedda) (w2 : World) (text : String) (json : Option JValue)
    (upstream : List Booking)
    (hTok : s.verificationToken w domain = ((token, none), s1, w1))
    (hDo : clientDo s1 w1
        { method := "GET", url := .bookingslists domain from_ to_,
          header := [("X-Skedda-RequestVerificationToken", token)], body := .none,
          checkRedirect := .follow, cookies := [] } = (.ok res, s2, w2))
    (hStatus : res.StatusCode = 200) (hBody : res.Body = .data text json)
    (hDecode : w2.unmarshalBookings text = .ok upstream)
    (b : Booking) (hrec : 0 < b.RecurrenceRule.All.length)
    (h : timeOfDay to_ < timeOfDay from_ ∨ timeOfDay b.EndTime < timeOfDay b.StartTime) :
    (∃ list : List Booking,
      (s.Bookings w domain from_ to_).1 = .ret (some list, none) ∧ b ∉ list) ∧
    (∀ (s' : Skedda) (w' : World) (domain' : String) (list : List Booking)
        (e : Option GoError),
      (s'.Bookings w' domain' from_ to_).1 = .ret (some list, e) → b ∉ list) := by
  have hno : ∀ upstream' : List Booking, b ∉ bookingsLoop from_ to_ upstream' [] := by
    intro upstream' hmem
    rw [bookingsLoop_eq, List.nil_append, List.mem_filter,
      bookingAdd_across_midnight from_ to_ b hrec h] at hmem
    exact absurd hmem.2 (by simp)
  refine ⟨⟨bookingsLoop from_ to_ upstream [], ?_, hno upstream⟩, ?_⟩
  · rw [bookings_ok s w domain from_ to_ token s1 w1 res s2 w2 text json upstream hTok hDo
      hStatus hBody hDecode]
  · intro s' w' domain' list e hret
    obtain ⟨upstream', rfl⟩ := bookings_returns s' w' domain' from_ to_ list e hret
    exact hno upstream'

/-- Witness of C17: the tenant sends `lateShift` (recurring, 23:30 to 23:50), `visit` and
`nightShift` (recurring, 23:30 to 00:30). For the window from 23:00 to 01:00 of the next
day `Bookings` returns a list without `lateShift`, and for the window 23:00 to 23:59 a list
without `nightShift`. -/
theorem bookings_excludes_across_midnight_witness :
    0 < lateShift.RecurrenceRule.All.length ∧
    timeOfDay (Date 2024 5 2 1 0 0 0) < timeOfDay (Date 2024 5 1 23 0 0 0) ∧
    (∃ list : List Booking,
      (New.Bookings nightWorld "acme" (Date 2024 5 1 23 0 0 0) (Date 2024 5 2 1 0 0 0)).1
        = .ret (some list, none) ∧ lateShift ∉ list) ∧
    timeOfDay nightShift.EndTime < timeOfDay nightShift.StartTime ∧
    (∃ list : List Booking,
      (New.Bookings nightWorld "acme" (Date 2024 5 1 23 0 0 0) (Date 2024 5 1 23 59 0 0)).1
        = .ret (some list, none) ∧ nightShift ∉ list) :=
  ⟨by decide, by decide,
    (bookings_excludes_across_midnight New nightWorld "acme" (Date 2024 5 1 23 0 0 0)
      (Date 2024 5 2 1 0 0 0) "tok" _ _ _ _ _ "bookingslists" none
      [lateShift, visit, nightShift] rfl rfl rfl rfl rfl lateShift (by decide)
      (Or.inl (by decide))).1,
    by decide,
    (bookings_excludes_across_midnight New nightWorld "acme" (Date 2024 5 1 23 0 0 0)
      (Date 2024 5 1 23 59 0 0) "tok" _ _ _ _ _ "bookingslists" none
      [lateShift, visit, nightShift] rfl rfl rfl rfl rfl nightShift (by decide)
      (Or.inr (by decide))).1⟩

/-- C19: `TimeOverlaps` is the closed form: both intervals valid, and either each starts
before the other ends or the two are equal. For two intervals of positive length it is
strict overlap, so that intervals which only share an endpoint do not overlap. -/
theorem timeOverlaps_closed_form (t1Start t1End t2Start t2End : Time) :
    TimeOverlaps t1Start t1End t2Start t2End
      = (decide (t1Start.unixNano ≤ t1End.unixNano)
          && decide (t2Start.unixNano ≤ t2End.unixNano)
          && ((decide (t2Start.unixNano < t1End.unixNano)
                && decide (t1Start.unixNano < t2End.unixNano))
              || (decide (t2Start.unixNano = t1Start.unixNano)
                && decide (t2End.unixNano = t1End.unixNano)))) ∧
    (t1Start.unixNano < t1End.unixNano → t2Start.unixNano < t2End.unixNano →
      (TimeOverlaps t1Start t1End t2Start t2End = true ↔
        (t2Start.unixNano < t1End.unixNano ∧ t1Start.unixNano < t2End.unixNano)) ∧
      (t2End.unixNano = t1Start.unixNano ∨ t2Start.unixNano = t1End.unixNano →
        TimeOverlaps t1Start t1End t2Start t2End = false)) := by
  refine ⟨?_, ?_⟩
  · rw [Bool.eq_iff_iff, timeOverlaps_closed]
    simp only [Bool.and_eq_true, Bool.or_eq_true, decide_eq_true_eq]
  · intro h1 h2
    refine ⟨?_, ?_⟩
    · rw [timeOverlaps_closed]
      constructor <;> intro h <;> omega
    · intro h
      rw [← Bool.not_eq_true, timeOverlaps_closed]
      omega

/-- Witness of C19: against [08:00, 12:00], the intervals [06:00, 08:00] and [12:00, 14:00]
share an endpoint only and do not overlap; [11:00, 13:00] overlaps strictly. -/
theorem timeOverlaps_closed_form_witness :
    TimeOverlaps (march7 8) (march7 12) (march7 6) (march7 8) = false ∧
    TimeOverlaps (march7 8) (march7 12) (march7 12) (march7 14) = false ∧
    (TimeOverlaps (march7 8) (march7 12) (march7 11) (march7 13) = true ↔
      ((march7 11).unixNano < (march7 12).unixNano ∧
        (march7 8).unixNano < (march7 13).unixNano)) :=
  ⟨((timeOverlaps_closed_form (march7 8) (march7 12) (march7 6) (march7 8)).2
      (by decide) (by decide)).2 (Or.inl (by decide)),
    ((timeOverlaps_closed_form (march7 8) (march7 12) (march7 12) (march7 14)).2
      (by decide) (by decide)).2 (Or.inr (by decide)),
    ((timeOverlaps_closed_form (march7 8) (march7 12) (march7 11) (march7 13)).2
      (by decide) (by decide)).1⟩

/-- C20: `TimeOverlaps` is symmetric in its two intervals. -/
theorem timeOverlaps_symm (a1 a2 b1 b2 : Time) :
    TimeOverlaps a1 a2 b1 b2 = TimeOverlaps b1 b2 a1 a2 := by
  rw [Bool.eq_iff_iff, timeOverlaps_closed, timeOverlaps_closed]
  constructor <;> intro h <;> omega

/-! ### The claims on a refused login and on the redirect of `PrimaryDomain` -/

/-- A login answered by another status than 200, on a body on which `errorDetail` returns:
`Auth` returns an error that wraps `ErrAuthFailed`, with the detail or the status in its
message, and leaves the flag as it was. -/
theorem auth_refused (s : Skedda) (w : World) (res : Response) (r : String × Option GoError)
    (hs : s.isAuthenticated = false) (hu : s.username ≠ "") (hp : s.password ≠ "")
    (hrt : w.roundTrip w.sent
        { method := "POST", url := .logins, header := [("Content-Type", "application/json")],
          body := .login s.username s.password, checkRedirect := .follow,
          cookies := s.cookiejar } = .ok res)
    (hstatus : res.StatusCode ≠ 200)
    (hdetail : errorDetail res.Body = .ret r) :
    s.Auth w =
      (.ret (some (.wrap ("authentication failed: " ++ (statusError res.StatusCode r).Error)
          .ErrAuthFailed)),
        { s with cookiejar := s.cookiejar ++ res.cookies },
        { w with sent := w.sent ++
          [{ method := "POST", url := .logins, header := [("Content-Type", "application/json")],
             body := .login s.username s.password, checkRedirect := .follow,
             cookies := s.cookiejar }] }) := by
  have hc : s.hasCredentials = true := by
    simp [Skedda.hasCredentials, hu, hp]
  obtain ⟨detail, err⟩ := r
  simp only [Skedda.Auth, hs, hc, clientDo, hrt, hdetail]
  cases err <;> simp [hstatus, GoError.Error, unknownStatus, statusError]

/-- The session is marked authenticated by `Auth` only when `Auth` returns nil. -/
theorem auth_marks_only_on_nil (s : Skedda) (w : World) (hs : s.isAuthenticated = false)
    (h : (s.Auth w).2.1.isAuthenticated = true) : (s.Auth w).1 = .ret none := by
  have hses := clientDo_session s w
    { method := "POST", url := .logins, header := [("Content-Type", "application/json")],
      body := .login s.username s.password, checkRedirect := .follow, cookies := [] }
  unfold Skedda.Auth at h ⊢
  simp only [hs, Bool.false_eq_true, if_false] at h ⊢
  split_ifs at h ⊢ with hc
  · simp [hs] at h
  · split at h
    · rename_i heq
      rw [heq] at hses
      simp only at hses h
      rw [hses.1, hs] at h
      simp at h
    · rename_i heq
      rw [heq] at hses
      simp only at hses
      split_ifs at h ⊢
      · split at h
        · simp only at h
          rw [hses.1, hs] at h
          simp at h
        · simp only at h
          rw [hses.1, hs] at h
          simp at h
      · rfl

/-- C11, the code at the failing input: on a login answered by status 401 with the body
`{}`, `Auth` panics instead of returning an error that wraps `ErrAuthFailed` (the defect of
`errorDetail` of C7); on an envelope with a detail, and on a body that is not JSON, it
returns the two messages of the claim. -/
theorem auth_refused_panics :
    ((NewWithCreds "u" "p").Auth
        (sampleWorldWith .logins
          (plainResponse 401 (.data "\x7b\x7d" (some (.object [])))))).1
      = .panic (.indexOutOfRange 0 0) ∧
    ((NewWithCreds "u" "p").Auth
        (sampleWorldWith .logins (plainResponse 401
          (.data "\x7b\"errors\":[\x7b\"detail\":\"Invalid login\"\x7d]\x7d"
            (some (.object
              [("errors", .array [.object [("detail", .string "Invalid login")]])])))))).1
      = .ret (some (.wrap "authentication failed: Invalid login" .ErrAuthFailed)) ∧
    ((NewWithCreds "u" "p").Auth
        (sampleWorldWith .logins (plainResponse 500 (.data "<html>" none)))).1
      = .ret (some (.wrap "authentication failed: unknown status: 500" .ErrAuthFailed)) := by
  refine ⟨by decide, by decide, by decide⟩

/-- After `strings.TrimSuffix`, appending the suffix gives the string back. -/
theorem trimSuffix_append (s suffix : String) (h : HasSuffix s suffix = true) :
    TrimSuffix s suffix ++ suffix = s := by
  unfold TrimSuffix
  rw [if_pos h]
  unfold HasSuffix at h
  rw [List.isSuffixOf_iff_suffix] at h
  obtain ⟨t, ht⟩ := h
  apply String.ext
  rw [String.data_append, ← ht]
  simp

/-- On an authenticated session whose request is answered by status 302, `PrimaryDomain`
returns what it reads in the response. -/
theorem primaryDomain_response (s : Skedda) (w : World) (res : Response) (s1 : Skedda)
    (w1 : World) (hs : s.isAuthenticated = true)
    (hDo : clientDo s w
        { method := "POST", url := .accountLogin,
          header := [("Content-Type", "application/x-www-form-urlencoded")],
          body := .form s.username, checkRedirect := .useLastResponse, cookies := [] }
      = (.ok res, s1, w1))
    (hStatus : res.StatusCode = 302) :
    s.PrimaryDomain w = (primaryDomainOf res, s1, w1) := by
  unfold Skedda.PrimaryDomain
  simp only [hs, Bool.not_true, Bool.false_eq_true, if_false, hDo, hStatus]
  simp

/-- C12 as the specification states it fails: the host `www.eu.skedda.com` ends with
`.skedda.com` and is not `www.skedda.com`, so that the label `www.eu` should be returned,
but `PrimaryDomain` rejects it. -/
theorem primaryDomain_rejects_www_prefix :
    HasSuffix "www.eu.skedda.com" ".skedda.com" = true ∧
    "www.eu" ++ ".skedda.com" = "www.eu.skedda.com" ∧
    ((NewWithCreds "u" "p").PrimaryDomain
      (sampleWorldWith .accountLogin
        (redirectTo { Hostname := "www.eu.skedda.com", Query := [],
                      String := "https://www.eu.skedda.com/booking" }))).1
      = .ret ("", some (.text "unknown URL: https://www.eu.skedda.com/booking")) := by
  refine ⟨by decide, by decide, by decide⟩

/-- C12, amended: given a 302 response whose `Location` parses to a URL with hostname `h`,
`PrimaryDomain` succeeds exactly when `h` ends with `.skedda.com` and does not start with
`www.`; it then returns the label `d` with `d ++ ".skedda.com" = h`, and `d` is not `www`
(nor starts with `www.`). For every `h` that starts with `www.`, `www.skedda.com` among
them, and for every `h` without the suffix, it returns an error and the empty string.
(Each key of the query has at least one value, as `url.ParseQuery` builds it.) -/
theorem primaryDomain_host (s : Skedda) (w : World) (res : Response) (s1 : Skedda)
    (w1 : World) (u : URL) (hs : s.isAuthenticated = true)
    (hDo : clientDo s w
        { method := "POST", url := .accountLogin,
          header := [("Content-Type", "application/x-www-form-urlencoded")],
          body := .form s.username, checkRedirect := .useLastResponse, cookies := [] }
      = (.ok res, s1, w1))
    (hStatus : res.StatusCode = 302) (hLoc : res.Location = .url u)
    (hQuery : u.Query.lookup "err" ≠ some []) :
    (HasSuffix u.Hostname ".skedda.com" = true ∧ HasPrefix u.Hostname "www." = false →
      ∃ d : String, (s.PrimaryDomain w).1 = .ret (d, none) ∧
        d ++ ".skedda.com" = u.Hostname ∧ HasPrefix d "www." = false ∧ d ≠ "www") ∧
    (HasPrefix u.Hostname "www." = true ∨ HasSuffix u.Hostname ".skedda.com" = false →
      ∃ e : GoError, (s.PrimaryDomain w).1 = .ret ("", some e)) := by
  rw [primaryDomain_response s w res s1 w1 hs hDo hStatus]
  unfold primaryDomainOf
  simp only [hLoc]
  refine ⟨?_, ?_⟩
  · rintro ⟨hsuf, hpre⟩
    have happ := trimSuffix_append u.Hostname ".skedda.com" hsuf
    refine ⟨TrimSuffix u.Hostname ".skedda.com", by simp [hsuf, hpre], happ, ?_, ?_⟩
    · rw [← happ] at hpre
      unfold HasPrefix at hpre ⊢
      rw [String.data_append] at hpre
      cases hd : List.isPrefixOf "www.".data (TrimSuffix u.Hostname ".skedda.com").data
      · rfl
      · rw [List.isPrefixOf_iff_prefix] at hd
        have := hd.trans (List.prefix_append _ ".skedda.com".data)
        rw [← List.isPrefixOf_iff_prefix] at this
        rw [this] at hpre
        exact absurd hpre (by simp)
    · intro hd
      rw [hd] at happ
      rw [← happ] at hpre
      exact absurd hpre (by decide)
  · intro hrej
    have hcond :
        (HasPrefix u.Hostname "www." || !HasSuffix u.Hostname ".skedda.com") = true := by
      rcases hrej with h | h <;> simp [h]
    simp only [hcond, if_true]
    split_ifs
    · split
      · rename_i heq
        exact absurd heq hQuery
      · exact ⟨_, rfl⟩
      · exact ⟨_, rfl⟩
    · exact ⟨_, rfl⟩

/-- Witness of C12, amended: the redirect to `acme.skedda.com` gives a label `d` with
`d ++ ".skedda.com" = "acme.skedda.com"`; the redirects to `www.skedda.com` and to the
bare `skedda.com` give an error and the empty string. -/
theorem primaryDomain_host_witness :
    (∃ d : String, (loggedIn.PrimaryDomain sampleWorld).1 = .ret (d, none) ∧
      d ++ ".skedda.com" = "acme.skedda.com" ∧ HasPrefix d "www." = false ∧ d ≠ "www") ∧
    (∃ e : GoError,
      (loggedIn.PrimaryDomain (sampleWorldWith .accountLogin
        (redirectTo { Hostname := "www.skedda.com", Query := [],
                      String := "https://www.skedda.com/" }))).1 = .ret ("", some e)) ∧
    (∃ e : GoError,
      (loggedIn.PrimaryDomain (sampleWorldWith .accountLogin
        (redirectTo { Hostname := "skedda.com", Query := [],
                      String := "https://skedda.com/" }))).1 = .ret ("", some e)) :=
  ⟨(primaryDomain_host loggedIn sampleWorld _ _ _
      { Hostname := "acme.skedda.com", Query := [],
        String := "https://acme.skedda.com/booking" } rfl rfl rfl rfl (by decide)).1
      ⟨by decide, by decide⟩,
    (primaryDomain_host loggedIn
      (sampleWorldWith .accountLogin
        (redirectTo { Hostname := "www.skedda.com", Query := [],
                      String := "https://www.skedda.com/" })) _ _ _
      { Hostname := "www.skedda.com", Query := [], String := "https://www.skedda.com/" }
      rfl rfl rfl rfl (by decide)).2 (Or.inl (by decide)),
    (primaryDomain_host loggedIn
      (sampleWorldWith .accountLogin
        (redirectTo { Hostname := "skedda.com", Query := [],
                      String := "https://skedda.com/" })) _ _ _
      { Hostname := "skedda.com", Query := [], String := "https://skedda.com/" }
      rfl rfl rfl rfl (by decide)).2 (Or.inr (by decide))⟩

/-- C13 as the specification states it fails: the host `example.com` lacks the suffix and
the redirect URL carries `err=denied`, yet the error is `unknown URL`, not
`request failed: denied`. -/
theorem primaryDomain_ignores_err_off_apex :
    HasSuffix "example.com" ".skedda.com" = false ∧
    ((NewWithCreds "u" "p").PrimaryDomain
      (sampleWorldWith .accountLogin
        (redirectTo { Hostname := "example.com", Query := [("err", ["denied"])],
                      String := "https://example.com/?err=denied" }))).1
      = .ret ("", some (.text "unknown URL: https://example.com/?err=denied")) := by
  refine ⟨by decide, by decide⟩

/-- C13, amended: when `PrimaryDomain` rejects a host that starts with `www.` and ends with
`.skedda.com`, and the redirect URL carries an `err` query parameter, the error is
`request failed: ` followed by the first `err` value; when the host lacks the suffix the
error is `unknown URL: ` followed by the URL, with or without an `err` parameter, and so
it is for a host that starts with `www.` when there is no `err` parameter. -/
theorem primaryDomain_request_failed (s : Skedda) (w : World) (res : Response)
    (s1 : Skedda) (w1 : World) (u : URL) (hs : s.isAuthenticated = true)
    (hDo : clientDo s w
        { method := "POST", url := .accountLogin,
          header := [("Content-Type", "application/x-www-form-urlencoded")],
          body := .form s.username, checkRedirect := .useLastResponse, cookies := [] }
      = (.ok res, s1, w1))
    (hStatus : res.StatusCode = 302) (hLoc : res.Location = .url u) :
    (∀ (err0 : String) (more : List String),
      HasPrefix u.Hostname "www." = true → HasSuffix u.Hostname ".skedda.com" = true →
      u.Query.lookup "err" = some (err0 :: more) →
      (s.PrimaryDomain w).1 = .ret ("", some (.text ("request failed: " ++ err0)))) ∧
    (HasSuffix u.Hostname ".skedda.com" = false →
      (s.PrimaryDomain w).1 = .ret ("", some (.text ("unknown URL: " ++ u.String)))) ∧
    (HasPrefix u.Hostname "www." = true → u.Query.lookup "err" = none →
      (s.PrimaryDomain w).1 = .ret ("", some (.text ("unknown URL: " ++ u.String)))) := by
  rw [primaryDomain_response s w res s1 w1 hs hDo hStatus]
  unfold primaryDomainOf
  simp only [hLoc]
  refine ⟨?_, ?_, ?_⟩
  · intro err0 more hpre hsuf hq
    simp [hpre, hsuf, hq]
  · intro hsuf
    simp [hsuf]
  · intro hpre hq
    simp [hpre, hq]

/-- Witness of C13, amended: the redirect to `www.skedda.com/?err=locked` gives the error
`request failed: locked`. -/
theorem primaryDomain_request_failed_witness :
    (loggedIn.PrimaryDomain (sampleWorldWith .accountLogin
      (redirectTo { Hostname := "www.skedda.com", Query := [("err", ["locked", "again"])],
                    String := "https://www.skedda.com/?err=locked&err=again" }))).1
      = .ret ("", some (.text "request failed: locked")) :=
  (primaryDomain_request_failed loggedIn
    (sampleWorldWith .accountLogin
      (redirectTo { Hostname := "www.skedda.com", Query := [("err", ["locked", "again"])],
                    String := "https://www.skedda.com/?err=locked&err=again" })) _ _ _
    { Hostname := "www.skedda.com", Query := [("err", ["locked", "again"])],
      String := "https://www.skedda.com/?err=locked&err=again" }
    rfl rfl rfl rfl).1 "locked" ["again"] (by decide) (by decide) rfl

/-! ### The claims on the token pattern -/

/-- A match of the closing part of the pattern: group 1 has no newline and is followed by
the closing literal. -/
theorem matchGroup_sound (l m g : List Char) (h : matchGroup l = some (m, g)) :
    m = g ++ tokenClose ∧ '\n' ∉ g ∧ ∃ post, l = g ++ (tokenClose ++ post) := by
  induction l generalizing m g with
  | nil => simp [matchGroup] at h
  | cons c cs ih =>
    have hstop : (if tokenClose.isPrefixOf (c :: cs) = true then some (tokenClose, [])
        else (none : Option (List Char × List Char))) = some (m, g) →
        m = g ++ tokenClose ∧ '\n' ∉ g ∧ ∃ post, c :: cs = g ++ (tokenClose ++ post) := by
      intro hs
      split_ifs at hs with hp
      simp only [Option.some.injEq, Prod.mk.injEq] at hs
      obtain ⟨rfl, rfl⟩ := hs
      rw [List.isPrefixOf_iff_prefix] at hp
      obtain ⟨post, hpost⟩ := hp
      exact ⟨rfl, by simp, post, by simpa using hpost.symm⟩
    unfold matchGroup at h
    dsimp only at h
    by_cases hc : c = '\n'
    · rw [if_pos hc] at h
      exact hstop h
    · rw [if_neg hc] at h
      cases hrec : matchGroup cs with
      | none =>
        rw [hrec] at h
        exact hstop h
      | some r =>
        obtain ⟨m', g'⟩ := r
        rw [hrec] at h
        simp only [Option.some.injEq, Prod.mk.injEq] at h
        obtain ⟨rfl, rfl⟩ := h
        obtain ⟨hm, hg, post, hpost⟩ := ih m' g' hrec
        refine ⟨by simp [hm], ?_, post, by simp [hpost]⟩
        simp only [List.mem_cons, not_or]
        exact ⟨fun h' => hc h'.symm, hg⟩

/-- The closing part of the pattern matches wherever a text without newline is followed by
the closing literal. -/
theorem matchGroup_complete (g post : List Char) (hg : '\n' ∉ g) :
    (matchGroup (g ++ (tokenClose ++ post))).isSome = true := by
  induction g with
  | nil =>
    have : tokenClose ++ post = '"' :: (' ' :: '/' :: '>' :: post) := rfl
    simp only [List.nil_append, this]
    unfold matchGroup
    simp [tokenClose]
    split <;> simp
  | cons c g ih =>
    simp only [List.mem_cons, not_or] at hg
    have ih' := ih hg.2
    simp only [List.cons_append]
    unfold matchGroup
    dsimp only
    rw [if_neg (fun h => hg.1 h.symm)]
    cases hrec : matchGroup (g ++ (tokenClose ++ post)) with
    | none => rw [hrec] at ih'; simp at ih'
    | some r => simp

/-- A match of the value part of the pattern that starts with the literal. -/
theorem matchValue_here_sound (l m g : List Char)
    (h : (if tokenValue.isPrefixOf l = true then
        (matchGroup (l.drop tokenValue.length)).map (fun (m, g) => (tokenValue ++ m, g))
        else none) = some (m, g)) :
    '\n' ∉ g ∧ ∃ post, l = tokenValue ++ (g ++ (tokenClose ++ post)) := by
  split_ifs at h with hp
  rw [List.isPrefixOf_iff_prefix] at hp
  obtain ⟨rest, rfl⟩ := hp
  rw [List.drop_left] at h
  cases hrec : matchGroup rest with
  | none => rw [hrec] at h; simp at h
  | some r =>
    obtain ⟨m', g'⟩ := r
    rw [hrec] at h
    simp only [Option.map_some', Option.some.injEq, Prod.mk.injEq] at h
    obtain ⟨-, rfl⟩ := h
    obtain ⟨-, hg, post, hpost⟩ := matchGroup_sound rest m' g' hrec
    exact ⟨hg, post, by rw [hpost]⟩

/-- A match of the middle part of the pattern: attributes without newline, the literal,
the group, the closing literal. -/
theorem matchValue_sound (l m g : List Char) (h : matchValue l = some (m, g)) :
    '\n' ∉ g ∧ ∃ attrs post, '\n' ∉ attrs ∧
      l = attrs ++ (tokenValue ++ (g ++ (tokenClose ++ post))) := by
  induction l generalizing m with
  | nil => simp [matchValue] at h
  | cons c cs ih =>
    unfold matchValue at h
    dsimp only at h
    by_cases hc : c = '\n'
    · rw [if_pos hc] at h
      obtain ⟨hg, post, hpost⟩ := matchValue_here_sound (c :: cs) m g h
      exact ⟨hg, [], post, by simp, by simpa using hpost⟩
    · rw [if_neg hc] at h
      cases hrec : matchValue cs with
      | none =>
        rw [hrec] at h
        obtain ⟨hg, post, hpost⟩ := matchValue_here_sound (c :: cs) m g h
        exact ⟨hg, [], post, by simp, by simpa using hpost⟩
      | some r =>
        obtain ⟨m', g'⟩ := r
        rw [hrec] at h
        simp only [Option.some.injEq, Prod.mk.injEq] at h
        obtain ⟨-, rfl⟩ := h
        obtain ⟨hg, attrs, post, hattrs, hpost⟩ := ih m' hrec
        refine ⟨hg, c :: attrs, post, ?_, by simp [hpost]⟩
        simp only [List.mem_cons, not_or]
        exact ⟨fun h' => hc h'.symm, hattrs⟩

/-- The middle part of the pattern matches wherever such a text stands. -/
theorem matchValue_complete (attrs v post : List Char) (ha : '\n' ∉ attrs) (hv : '\n' ∉ v) :
    (matchValue (attrs ++ (tokenValue ++ (v ++ (tokenClose ++ post))))).isSome = true := by
  induction attrs with
  | nil =>
    have hcons : tokenValue ++ (v ++ (tokenClose ++ post))
        = ' ' :: ("value=\"".data ++ (v ++ (tokenClose ++ post))) := rfl
    have hpre : tokenValue.isPrefixOf (' ' :: ("value=\"".data ++ (v ++ (tokenClose ++ post))))
        = true := by
      rw [← hcons, List.isPrefixOf_iff_prefix]
      exact List.prefix_append _ _
    simp only [List.nil_append, hcons]
    unfold matchValue
    dsimp only
    rw [if_neg (by decide), if_pos hpre, ← hcons, List.drop_left]
    cases hrec : matchValue ("value=\"".data ++ (v ++ (tokenClose ++ post))) with
    | some r => simp
    | none =>
      have := matchGroup_complete v post hv
      cases hg : matchGroup (v ++ (tokenClose ++ post)) with
      | none => rw [hg] at this; simp at this
      | some r => simp
  | cons c attrs ih =>
    simp only [List.mem_cons, not_or] at ha
    have ih' := ih ha.2
    simp only [List.cons_append]
    unfold matchValue
    dsimp only
    rw [if_neg (fun h => ha.1 h.symm)]
    cases hrec : matchValue (attrs ++ (tokenValue ++ (v ++ (tokenClose ++ post)))) with
    | none => rw [hrec] at ih'; simp at ih'
    | some r => simp

/-- A match of the pattern at the start of the text is a token tag there. -/
theorem matchToken_sound (text m g : List Char) (h : matchToken text = some (m, g)) :
    TokenTag text g := by
  unfold matchToken at h
  split_ifs at h with hp
  rw [List.isPrefixOf_iff_prefix] at hp
  obtain ⟨rest, rfl⟩ := hp
  rw [List.drop_left] at h
  cases hrec : matchValue rest with
  | none => rw [hrec] at h; simp at h
  | some r =>
    obtain ⟨m', g'⟩ := r
    rw [hrec] at h
    simp only [Option.map_some', Option.some.injEq, Prod.mk.injEq] at h
    obtain ⟨-, rfl⟩ := h
    obtain ⟨hg, attrs, post, hattrs, hpost⟩ := matchValue_sound rest m' g' hrec
    exact ⟨[], attrs, post, by rw [hpost]; rfl, hattrs, hg⟩

/-- The match that the search finds is a token tag of the text, with group 1 as its value. -/
theorem findToken_sound (text m g : List Char) (h : findToken text = some (m, g)) :
    TokenTag text g := by
  induction text with
  | nil => simp [findToken] at h
  | cons c cs ih =>
    unfold findToken at h
    cases hrec : matchToken (c :: cs) with
    | some r =>
      obtain ⟨m', g'⟩ := r
      rw [hrec] at h
      simp only [Option.some.injEq, Prod.mk.injEq] at h
      obtain ⟨-, rfl⟩ := h
      exact matchToken_sound _ _ _ hrec
    | none =>
      rw [hrec] at h
      obtain ⟨pre, attrs, post, htext, ha, hv⟩ := ih h
      exact ⟨c :: pre, attrs, post, by rw [htext]; rfl, ha, hv⟩

/-- The search finds a match whenever the text has a token tag. -/
theorem findToken_complete (text v : List Char) (h : TokenTag text v) :
    (findToken text).isSome = true := by
  obtain ⟨pre, attrs, post, rfl, ha, hv⟩ := h
  have hhere : Option.isSome (matchToken
      (tokenOpen ++ (attrs ++ (tokenValue ++ (v ++ (tokenClose ++ post)))))) = true := by
    unfold matchToken
    rw [if_pos (by rw [List.isPrefixOf_iff_prefix]; exact List.prefix_append _ _),
      List.drop_left]
    have := matchValue_complete attrs v post ha hv
    cases hrec : matchValue (attrs ++ (tokenValue ++ (v ++ (tokenClose ++ post)))) with
    | none => rw [hrec] at this; simp at this
    | some r => simp
  induction pre with
  | nil =>
    have hcons : tokenOpen ++ (attrs ++ (tokenValue ++ (v ++ (tokenClose ++ post))))
        = '<' :: ("input name=\"__RequestVerificationToken\" ".data
            ++ (attrs ++ (tokenValue ++ (v ++ (tokenClose ++ post))))) := rfl
    simp only [List.nil_append]
    rw [hcons] at hhere ⊢
    unfold findToken
    cases hrec : matchToken ('<' :: ("input name=\"__RequestVerificationToken\" ".data
            ++ (attrs ++ (tokenValue ++ (v ++ (tokenClose ++ post)))))) with
    | none => rw [hrec] at hhere; simp at hhere
    | some r => simp
  | cons c pre ih =>
    simp only [List.cons_append]
    unfold findToken
    cases hrec : matchToken (c :: (pre ++ (tokenOpen ++ (attrs ++ (tokenValue ++
        (v ++ (tokenClose ++ post))))))) with
    | some r => simp
    | none => simpa using ih

/-- The result of `FindStringSubmatch` has two elements exactly when the text has a token
tag; its second element is then the value of a token tag; without a tag it is nil. -/
theorem findStringSubmatch_iff (text : String) :
    ((∃ whole token, FindStringSubmatch text = [whole, token]) ↔ ∃ v, TokenTag text.data v) ∧
    (∀ whole token, FindStringSubmatch text = [whole, token] → TokenTag text.data token.data) ∧
    ((¬ ∃ v, TokenTag text.data v) → FindStringSubmatch text = []) := by
  unfold FindStringSubmatch
  cases hrec : findToken text.data with
  | none =>
    have hno : ¬ ∃ v, TokenTag text.data v := by
      rintro ⟨v, hv⟩
      have := findToken_complete _ _ hv
      rw [hrec] at this
      simp at this
    simp [hno]
  | some r =>
    obtain ⟨m, g⟩ := r
    have hg := findToken_sound _ _ _ hrec
    refine ⟨⟨fun _ => ⟨g, hg⟩, fun _ => ⟨_, _, rfl⟩⟩, ?_, fun hno => absurd ⟨g, hg⟩ hno⟩
    intro whole token h
    simp only [List.cons.injEq, and_true] at h
    rw [← h.2]
    exact hg

/-- C14, the code at the failing inputs: on a page with exactly one token tag, of value
`abc`, that is followed on its line by another input tag, `verificationToken` returns the
value `y` of that other tag; followed by another `" />`, it returns `abc` together with
the text up to the last `" />` of the line. Alone on its line the value is returned as
it is. -/
theorem verificationToken_greedy :
    (New.verificationToken
      (sampleWorldWith (.booking "acme") (plainResponse 200 (.data twoTagLine none)))
      "acme").1 = ("y", none) ∧
    (New.verificationToken
      (sampleWorldWith (.booking "acme") (plainResponse 200 (.data tagThenBreak none)))
      "acme").1 = ("abc\" /><br class=\"sep", none) ∧
    (New.verificationToken sampleWorld "acme").1 = ("tok", none) := by
  refine ⟨by decide, by decide, by decide⟩

/-- C15 as the specification states it fails: on a page with two token tags
`verificationToken` succeeds, with the value of the first. -/
theorem verificationToken_two_tags :
    (New.verificationToken
      (sampleWorldWith (.booking "acme") (plainResponse 200 (.data twoTokenTags none)))
      "acme").1 = ("first", none) := by
  decide

/-- Group 1 is as long as the closing part of the pattern allows. -/
theorem matchGroup_max (l m g : List Char) (h : matchGroup l = some (m, g))
    (g' post' : List Char) (hl : l = g' ++ (tokenClose ++ post')) (hg' : '\n' ∉ g') :
    g'.length ≤ g.length := by
  induction l generalizing m g g' with
  | nil => simp [matchGroup] at h
  | cons c cs ih =>
    cases g' with
    | nil => simp
    | cons c' g'' =>
      simp only [List.cons_append, List.cons.injEq] at hl
      obtain ⟨rfl, hcs⟩ := hl
      simp only [List.mem_cons, not_or] at hg'
      unfold matchGroup at h
      dsimp only at h
      rw [if_neg (fun hc => hg'.1 hc.symm)] at h
      have hsome := matchGroup_complete g'' post' hg'.2
      rw [← hcs] at hsome
      cases hrec : matchGroup cs with
      | none => rw [hrec] at hsome; simp at hsome
      | some r =>
        obtain ⟨m2, g2⟩ := r
        rw [hrec] at h
        simp only [Option.some.injEq, Prod.mk.injEq] at h
        obtain ⟨-, rfl⟩ := h
        have := ih m2 g2 hrec g'' hcs hg'.2
        simpa using this

/-- A match of the value part that starts with the literal: group 1 is as long as a match
allows. -/
theorem matchValue_here_max (l m g : List Char)
    (h : (if tokenValue.isPrefixOf l = true then
        (matchGroup (l.drop tokenValue.length)).map (fun (m, g) => (tokenValue ++ m, g))
        else none) = some (m, g))
    (v' post' : List Char) (hl : l = tokenValue ++ (v' ++ (tokenClose ++ post')))
    (hv' : '\n' ∉ v') : v'.length ≤ g.length := by
  split_ifs at h with hp
  subst hl
  rw [List.drop_left] at h
  cases hrec : matchGroup (v' ++ (tokenClose ++ post')) with
  | none => rw [hrec] at h; simp at h
  | some r =>
    obtain ⟨m', g'⟩ := r
    rw [hrec] at h
    simp only [Option.map_some', Option.some.injEq, Prod.mk.injEq] at h
    obtain ⟨-, rfl⟩ := h
    exact matchGroup_max _ m' g' hrec v' post' rfl hv'

/-- A match of the middle part of the pattern, with what the search prefers: the
attributes are as long as a match allows, and after them group 1 is. -/
theorem matchValue_greedy (l m g : List Char) (h : matchValue l = some (m, g)) :
    ∃ attrs post, '\n' ∉ attrs ∧ '\n' ∉ g ∧
      l = attrs ++ (tokenValue ++ (g ++ (tokenClose ++ post))) ∧
      (∀ attrs' v' post', l = attrs' ++ (tokenValue ++ (v' ++ (tokenClose ++ post'))) →
        '\n' ∉ attrs' → '\n' ∉ v' → attrs'.length ≤ attrs.length) ∧
      (∀ v' post', l = attrs ++ (tokenValue ++ (v' ++ (tokenClose ++ post'))) →
        '\n' ∉ v' → v'.length ≤ g.length) := by
  induction l generalizing m with
  | nil => simp [matchValue] at h
  | cons c cs ih =>
    have hhere : (if tokenValue.isPrefixOf (c :: cs) = true then
          (matchGroup ((c :: cs).drop tokenValue.length)).map
            (fun (m, g) => (tokenValue ++ m, g))
          else none) = some (m, g) →
        (c = '\n' ∨ matchValue cs = none) →
        ∃ attrs post, '\n' ∉ attrs ∧ '\n' ∉ g ∧
          c :: cs = attrs ++ (tokenValue ++ (g ++ (tokenClose ++ post))) ∧
          (∀ attrs' v' post',
            c :: cs = attrs' ++ (tokenValue ++ (v' ++ (tokenClose ++ post'))) →
            '\n' ∉ attrs' → '\n' ∉ v' → attrs'.length ≤ attrs.length) ∧
          (∀ v' post', c :: cs = attrs ++ (tokenValue ++ (v' ++ (tokenClose ++ post'))) →
            '\n' ∉ v' → v'.length ≤ g.length) := by
      intro hh hstop
      obtain ⟨hg, post, hpost⟩ := matchValue_here_sound (c :: cs) m g hh
      refine ⟨[], post, by simp, hg, by simpa using hpost, ?_, ?_⟩
      · intro attrs' v' post' hl ha' hv'
        cases attrs' with
        | nil => simp
        | cons c' a'' =>
          exfalso
          simp only [List.cons_append, List.cons.injEq] at hl
          obtain ⟨rfl, hcs⟩ := hl
          simp only [List.mem_cons, not_or] at ha'
          rcases hstop with hc | hnone
          · exact ha'.1 hc.symm
          · have := matchValue_complete a'' v' post' ha'.2 hv'
            rw [← hcs, hnone] at this
            simp at this
      · intro v' post' hl hv'
        exact matchValue_here_max (c :: cs) m g hh v' post' (by simpa using hl) hv'
    unfold matchValue at h
    dsimp only at h
    by_cases hc : c = '\n'
    · rw [if_pos hc] at h
      exact hhere h (Or.inl hc)
    · rw [if_neg hc] at h
      cases hrec : matchValue cs with
      | none =>
        rw [hrec] at h
        exact hhere h (Or.inr hrec)
      | some r =>
        obtain ⟨m', g'⟩ := r
        rw [hrec] at h
        simp only [Option.some.injEq, Prod.mk.injEq] at h
        obtain ⟨-, rfl⟩ := h
        obtain ⟨attrs, post, hattrs, hg, hpost, hmaxa, hmaxv⟩ := ih m' hrec
        refine ⟨c :: attrs, post, ?_, hg, by simp [hpost], ?_, ?_⟩
        · simp only [List.mem_cons, not_or]
          exact ⟨fun h' => hc h'.symm, hattrs⟩
        · intro attrs' v' post' hl ha' hv'
          cases attrs' with
          | nil => simp
          | cons c' a'' =>
            simp only [List.cons_append, List.cons.injEq] at hl
            simp only [List.mem_cons, not_or] at ha'
            have := hmaxa a'' v' post' hl.2 ha'.2 hv'
            simpa using this
        · intro v' post' hl hv'
          simp only [List.cons_append, List.cons.injEq, true_and] at hl
          exact hmaxv v' post' hl hv'

/-- The pattern matches at the start of the text wherever a tag stands there. -/
theorem matchToken_complete (text attrs v : List Char) (h : TagAt text [] attrs v) :
    (matchToken text).isSome = true := by
  obtain ⟨post, rfl, ha, hv⟩ := h
  unfold matchToken
  rw [List.nil_append,
    if_pos (by rw [List.isPrefixOf_iff_prefix]; exact List.prefix_append _ _), List.drop_left]
  have := matchValue_complete attrs v post ha hv
  cases hrec : matchValue (attrs ++ (tokenValue ++ (v ++ (tokenClose ++ post)))) with
  | none => rw [hrec] at this; simp at this
  | some r => simp

/-- A match of the pattern at the start of the text, with what the search prefers. -/
theorem matchToken_greedy (text m g : List Char) (h : matchToken text = some (m, g)) :
    ∃ attrs, TagAt text [] attrs g ∧
      (∀ attrs' v', TagAt text [] attrs' v' → attrs'.length ≤ attrs.length) ∧
      (∀ v', TagAt text [] attrs v' → v'.length ≤ g.length) := by
  unfold matchToken at h
  split_ifs at h with hp
  rw [List.isPrefixOf_iff_prefix] at hp
  obtain ⟨rest, rfl⟩ := hp
  rw [List.drop_left] at h
  cases hrec : matchValue rest with
  | none => rw [hrec] at h; simp at h
  | some r =>
    obtain ⟨m', g'⟩ := r
    rw [hrec] at h
    simp only [Option.map_some', Option.some.injEq, Prod.mk.injEq] at h
    obtain ⟨-, rfl⟩ := h
    obtain ⟨attrs, post, hattrs, hg, hpost, hmaxa, hmaxv⟩ := matchValue_greedy rest m' g' hrec
    refine ⟨attrs, ⟨post, by rw [hpost]; rfl, hattrs, hg⟩, ?_, ?_⟩
    · rintro attrs' v' ⟨post', hl, ha', hv'⟩
      rw [List.nil_append] at hl
      exact hmaxa attrs' v' post' (List.append_cancel_left hl) ha' hv'
    · rintro v' ⟨post', hl, -, hv'⟩
      rw [List.nil_append] at hl
      exact hmaxv v' post' (List.append_cancel_left hl) hv'

/-- A tag of `c :: cs` that starts after `c` is a tag of `cs`. -/
theorem tagAt_cons (c : Char) (cs pre attrs v : List Char) :
    TagAt (c :: cs) (c :: pre) attrs v ↔ TagAt cs pre attrs v := by
  constructor
  · rintro ⟨post, hl, ha, hv⟩
    simp only [List.cons_append, List.cons.injEq, true_and] at hl
    exact ⟨post, hl, ha, hv⟩
  · rintro ⟨post, hl, ha, hv⟩
    exact ⟨post, by rw [hl]; rfl, ha, hv⟩

/-- The match that the search finds is the one Go's `regexp` reports. -/
theorem findToken_leftmost (text m g : List Char) (h : findToken text = some (m, g)) :
    LeftmostTag text g := by
  induction text with
  | nil => simp [findToken] at h
  | cons c cs ih =>
    unfold findToken at h
    cases hrec : matchToken (c :: cs) with
    | some r =>
      obtain ⟨m', g'⟩ := r
      rw [hrec] at h
      simp only [Option.some.injEq, Prod.mk.injEq] at h
      obtain ⟨-, rfl⟩ := h
      obtain ⟨attrs, htag, hmaxa, hmaxv⟩ := matchToken_greedy _ _ _ hrec
      exact ⟨[], attrs, htag, fun _ _ _ _ => by simp, hmaxa, hmaxv⟩
    | none =>
      rw [hrec] at h
      obtain ⟨pre, attrs, htag, hmin, hmaxa, hmaxv⟩ := ih h
      refine ⟨c :: pre, attrs, (tagAt_cons c cs pre attrs g).2 htag, ?_, ?_, ?_⟩
      · intro pre' attrs' v' htag'
        cases pre' with
        | nil =>
          have := matchToken_complete _ _ _ htag'
          rw [hrec] at this
          simp at this
        | cons c' p'' =>
          have hc : c' = c := by
            obtain ⟨post, hl, -, -⟩ := htag'
            simp only [List.cons_append, List.cons.injEq] at hl
            exact hl.1.symm
          subst hc
          have := hmin p'' attrs' v' ((tagAt_cons c' cs p'' attrs' v').1 htag')
          simpa using this
      · intro attrs' v' htag'
        exact hmaxa attrs' v' ((tagAt_cons c cs pre attrs' v').1 htag')
      · intro v' htag'
        exact hmaxv v' ((tagAt_cons c cs pre attrs v').1 htag')

/-- The match that Go's `regexp` reports is a match. -/
theorem leftmostTag_tokenTag (text v : List Char) (h : LeftmostTag text v) :
    TokenTag text v := by
  obtain ⟨pre, attrs, ⟨post, hl, ha, hv⟩, -⟩ := h
  exact ⟨pre, attrs, post, hl, ha, hv⟩

/-- There is one match that Go's `regexp` reports. -/
theorem leftmostTag_unique (text v v' : List Char) (h : LeftmostTag text v)
    (h' : LeftmostTag text v') : v = v' := by
  obtain ⟨pre, attrs, htag, hmin, hmaxa, hmaxv⟩ := h
  obtain ⟨pre', attrs', htag', hmin', hmaxa', hmaxv'⟩ := h'
  have hpl : pre.length = pre'.length :=
    Nat.le_antisymm (hmin _ _ _ htag') (hmin' _ _ _ htag)
  obtain ⟨post, hl, ha, hv⟩ := htag
  obtain ⟨post', hl', ha', hv'⟩ := htag'
  have hpre : pre = pre' := (List.append_inj (hl.symm.trans hl') hpl).1
  subst hpre
  have hal : attrs.length = attrs'.length :=
    Nat.le_antisymm (hmaxa' _ _ ⟨post, hl, ha, hv⟩) (hmaxa _ _ ⟨post', hl', ha', hv'⟩)
  have e1 := List.append_cancel_left (List.append_cancel_left (hl.symm.trans hl'))
  have hattrs : attrs = attrs' := (List.append_inj e1 hal).1
  subst hattrs
  have hvl : v.length = v'.length :=
    Nat.le_antisymm (hmaxv' _ ⟨post, hl, ha, hv⟩) (hmaxv _ ⟨post', hl', ha', hv'⟩)
  have e2 := List.append_cancel_left (List.append_cancel_left e1)
  exact (List.append_inj e2 hvl).1

/-- The result of `FindStringSubmatch` has two elements exactly when the second is group 1
of the match that Go's `regexp` reports. -/
theorem findStringSubmatch_leftmost (text : String) (token : String) :
    (∃ whole, FindStringSubmatch text = [whole, token]) ↔ LeftmostTag text.data token.data := by
  unfold FindStringSubmatch
  cases hrec : findToken text.data with
  | none =>
    constructor
    · rintro ⟨whole, h⟩
      simp at h
    · intro h
      have := findToken_complete _ _ (leftmostTag_tokenTag _ _ h)
      rw [hrec] at this
      simp at this
  | some r =>
    obtain ⟨m, g⟩ := r
    have hg := findToken_leftmost _ _ _ hrec
    constructor
    · rintro ⟨whole, h⟩
      simp only [List.cons.injEq, and_true] at h
      rw [← h.2]
      exact hg
    · intro h
      have : g = token.data := leftmostTag_unique _ _ _ hg h
      exact ⟨⟨m⟩, by simp [this]⟩

/-- C15, amended: on a page of status 200, `verificationToken` succeeds if and only if the
page has at least one match of the token pattern, so also on a page with two or more token
tags. The token it returns is then group 1 of the match that Go's `regexp` reports, and of
no other: the match that starts leftmost, in which the first `.*` is as long as a match
allows and, after it, group 1 is as long as a match allows. A page without a match fails
with `verification token not found`. -/
theorem verificationToken_iff_tag (s : Skedda) (w : World) (domain : String)
    (res : Response) (s1 : Skedda) (w1 : World) (text : String) (json : Option JValue)
    (hURL : w.newRequestError domain = none)
    (hDo : clientDo s w
        { method := "GET", url := .booking domain, header := [], body := .none,
          checkRedirect := .stopAtWww, cookies := [] } = (.ok res, s1, w1))
    (hStatus : res.StatusCode = 200) (hBody : res.Body = .data text json) :
    ((∃ token, (s.verificationToken w domain).1 = (token, none)) ↔
      ∃ v, TokenTag text.data v) ∧
    (∀ token, (s.verificationToken w domain).1 = (token, none) ↔
      LeftmostTag text.data token.data) ∧
    ((¬ ∃ v, TokenTag text.data v) →
      (s.verificationToken w domain).1
        = ("", some (.text "verification token not found"))) := by
  obtain ⟨hiff, -, hnil⟩ := findStringSubmatch_iff text
  unfold Skedda.verificationToken
  simp only [hURL, hDo, hStatus, hBody]
  simp only [beq_iff_eq, Nat.reduceEqDiff, if_false, bne_self_eq_false, Bool.false_eq_true]
  by_cases htag : ∃ v, TokenTag text.data v
  · obtain ⟨whole, token, hm⟩ := hiff.2 htag
    have hleft : LeftmostTag text.data token.data :=
      (findStringSubmatch_leftmost text token).1 ⟨whole, hm⟩
    rw [hm]
    refine ⟨⟨fun _ => htag, fun _ => ⟨token, rfl⟩⟩, ?_, fun hno => absurd htag hno⟩
    intro token'
    constructor
    · intro h
      simp only [Prod.mk.injEq, and_true] at h
      rw [← h]
      exact hleft
    · intro h
      have : token = token' := String.ext (leftmostTag_unique _ _ _ hleft h)
      rw [this]
  · rw [hnil htag]
    refine ⟨⟨?_, fun h => absurd h htag⟩, ?_, fun _ => rfl⟩
    · rintro ⟨token, h⟩
      simp at h
    · intro token
      constructor
      · intro h
        simp at h
      · intro h
        exact absurd ⟨token.data, leftmostTag_tokenTag _ _ h⟩ htag

/-- Witness of C15, amended: on the page with the two token tags `first` and `second`,
`first` is group 1 of the match that Go's `regexp` reports and `second` is not; a page
without the tag gives `verification token not found`. -/
theorem verificationToken_iff_tag_witness :
    LeftmostTag twoTokenTags.data "first".data ∧
    ¬ LeftmostTag twoTokenTags.data "second".data ∧
    (New.verificationToken
      (sampleWorldWith (.booking "acme") (plainResponse 200 (.data "<form></form>" none)))
      "acme").1 = ("", some (.text "verification token not found")) :=
  ⟨((verificationToken_iff_tag New
      (sampleWorldWith (.booking "acme") (plainResponse 200 (.data twoTokenTags none)))
      "acme" _ _ _ twoTokenTags none rfl rfl rfl rfl).2.1 "first").1 (by decide),
    fun h => absurd (((verificationToken_iff_tag New
      (sampleWorldWith (.booking "acme") (plainResponse 200 (.data twoTokenTags none)))
      "acme" _ _ _ twoTokenTags none rfl rfl rfl rfl).2.1 "second").2 h) (by decide),
    (verificationToken_iff_tag New
      (sampleWorldWith (.booking "acme") (plainResponse 200 (.data "<form></form>" none)))
      "acme" _ _ _ "<form></form>" none rfl rfl rfl rfl).2.2
      (fun ⟨v, hv⟩ => absurd (findToken_complete _ v hv) (by decide))⟩

/-! ### The calendar: `Year`, `Month`, `Day` against `time.Date` -/

/-- The result of `time.Date` with the location UTC has the offset 0. -/
theorem date_offset (year month day hour min sec nsec : Int) :
    (Date year month day hour min sec nsec).offset = 0 := rfl

theorem bytesLess_irrefl (a : List Nat) : bytesLess a a = false := by
  induction a with
  | nil => rfl
  | cons x xs ih => simp [bytesLess, ih]

theorem bytesLess_asymm : ∀ a b : List Nat, bytesLess a b = true → bytesLess b a = false
  | _, [], h => by simp [bytesLess] at h
  | [], _ :: _, _ => by simp [bytesLess]
  | x :: xs, y :: ys, h => by
    simp only [bytesLess] at h ⊢
    split_ifs at h ⊢ with h1 h2 h3
    all_goals first | omega | exact bytesLess_asymm xs ys h | rfl

theorem bytesLess_trans : ∀ a b c : List Nat,
    bytesLess a b = true → bytesLess b c = true → bytesLess a c = true
  | _, _, [], _, h => by simp [bytesLess] at h
  | _, [], _ :: _, h, _ => by simp [bytesLess] at h
  | [], _ :: _, _ :: _, _, _ => by simp [bytesLess]
  | x :: xs, y :: ys, z :: zs, h1, h2 => by
    simp only [bytesLess] at h1 h2 ⊢
    split_ifs at h1 h2 ⊢
    all_goals first | omega | exact bytesLess_trans xs ys zs h1 h2 | rfl

theorem bytesLess_total : ∀ a b : List Nat,
    bytesLess a b = false → bytesLess b a = false → a = b
  | [], [], _, _ => rfl
  | [], _ :: _, h, _ => by simp [bytesLess] at h
  | _ :: _, [], _, h => by simp [bytesLess] at h
  | x :: xs, y :: ys, h1, h2 => by
    simp only [bytesLess] at h1 h2
    split_ifs at h1 h2
    have := bytesLess_total xs ys h1 h2
    have hxy : x = y := by omega
    rw [this, hxy]

theorem utf8_append_inj (c d : Nat) (r s : List Nat) (h : utf8 c ++ r = utf8 d ++ s) :
    c = d ∧ r = s := by
  unfold utf8 at h
  split_ifs at h
  all_goals simp only [List.cons_append, List.nil_append, List.cons.injEq] at h
  all_goals first | (exfalso; omega) | (constructor <;> first | omega | simp [h])

theorem bytes_inj : ∀ a b : List Char, bytes a = bytes b → a = b
  | [], [], _ => rfl
  | [], c :: cs, h => by
    exfalso
    simp only [bytes, utf8] at h
    split_ifs at h <;> simp at h
  | c :: cs, [], h => by
    exfalso
    simp only [bytes, utf8] at h
    split_ifs at h <;> simp at h
  | c :: cs, d :: ds, h => by
    obtain ⟨h1, h2⟩ := utf8_append_inj _ _ _ _ h
    have := bytes_inj cs ds h2
    have hc : c = d := Char.ext (UInt32.ext h1)
    rw [this, hc]
theorem stringLess_irrefl (a : String) : stringLess a a = false :=
  bytesLess_irrefl _

theorem stringLess_asymm (a b : String) (h : stringLess a b = true) :
    stringLess b a = false :=
  bytesLess_asymm _ _ h

theorem stringLess_trans (a b c : String) (h1 : stringLess a b = true)
    (h2 : stringLess b c = true) : stringLess a c = true :=
  bytesLess_trans _ _ _ h1 h2

theorem stringLess_total (a b : String) (h1 : stringLess a b = false)
    (h2 : stringLess b a = false) : a = b :=
  String.ext (bytes_inj _ _ (bytesLess_total _ _ h1 h2))

theorem spaceLess_iff (s t : Space) :
    spaceLess s t = true ↔
      s.VenueID < t.VenueID ∨ (s.VenueID = t.VenueID ∧ stringLess s.Name t.Name = true) := by
  unfold spaceLess
  split_ifs with h
  · simp [h]
  · simp only [decide_eq_true_eq]
    constructor
    · exact Or.inl
    · rintro (h1 | ⟨h1, -⟩)
      · exact h1
      · exact absurd h1 h

theorem spaceLess_irrefl (s : Space) : spaceLess s s = false := by
  simp [spaceLess, stringLess_irrefl]

theorem spaceLess_asymm (s t : Space) (h : spaceLess s t = true) : spaceLess t s = false := by
  rw [spaceLess_iff] at h
  rw [← Bool.not_eq_true, spaceLess_iff]
  rintro (h1 | ⟨h1, h2⟩)
  · rcases h with h | ⟨h, -⟩ <;> omega
  · rcases h with h | ⟨-, h⟩
    · omega
    · rw [stringLess_asymm _ _ h] at h2
      exact Bool.false_ne_true h2

theorem spaceLess_trans (s t u : Space) (h1 : spaceLess s t = true)
    (h2 : spaceLess t u = true) : spaceLess s u = true := by
  rw [spaceLess_iff] at h1 h2 ⊢
  rcases h1 with h1 | ⟨h1, n1⟩ <;> rcases h2 with h2 | ⟨h2, n2⟩
  · exact Or.inl (by omega)
  · exact Or.inl (by omega)
  · exact Or.inl (by omega)
  · exact Or.inr ⟨by omega, stringLess_trans _ _ _ n1 n2⟩

theorem spaceLess_incomparable (s t : Space) :
    (spaceLess s t = false ∧ spaceLess t s = false) ↔
      (s.VenueID = t.VenueID ∧ s.Name = t.Name) := by
  constructor
  · rintro ⟨h1, h2⟩
    rw [← Bool.not_eq_true, spaceLess_iff] at h1 h2
    have hv : s.VenueID = t.VenueID := by
      by_contra hne
      rcases lt_or_gt_of_ne hne with h | h
      · exact h1 (Or.inl h)
      · exact h2 (Or.inl h)
    refine ⟨hv, stringLess_total _ _ ?_ ?_⟩
    · rw [← Bool.not_eq_true]
      exact fun h => h1 (Or.inr ⟨hv, h⟩)
    · rw [← Bool.not_eq_true]
      exact fun h => h2 (Or.inr ⟨hv.symm, h⟩)
  · rintro ⟨hv, hn⟩
    simp [spaceLess, hv, hn, stringLess_irrefl]

/-- Negative transitivity: "not after" composes. -/
theorem spaceLess_negtrans (s t u : Space) (h1 : spaceLess s t = false)
    (h2 : spaceLess t u = false) : spaceLess s u = false := by
  rw [← Bool.not_eq_true] at h1 h2 ⊢
  intro h
  by_cases hut : spaceLess u t = true
  · exact h1 (spaceLess_trans _ _ _ h hut)
  · have hinc := (spaceLess_incomparable t u).1 ⟨by simpa using h2, by simpa using hut⟩
    apply h1
    rw [spaceLess_iff] at h ⊢
    rw [hinc.1, hinc.2]
    exact h

theorem index_natCast (l : SpaceList) (n : Nat) :
    SpaceList.index l (n : Int) =
      match l[n]? with
      | some s => .ret s
      | none => .panic (.indexOutOfRange n l.length) := by
  simp [SpaceList.index]

theorem index_ret (l : SpaceList) (i : Int) (h0 : 0 ≤ i) (h : i < SpaceList.Len l) :
    ∃ s, l[i.toNat]? = some s ∧ SpaceList.index l i = .ret s := by
  have hlt : i.toNat < l.length := by
    unfold SpaceList.Len at h
    omega
  refine ⟨l[i.toNat], List.getElem?_eq_getElem hlt, ?_⟩
  simp [SpaceList.index, h0, List.getElem?_eq_getElem hlt]

theorem less_ret (l : SpaceList) (i j : Int) (s t : Space) (hi : SpaceList.index l i = .ret s)
    (hj : SpaceList.index l j = .ret t) : SpaceList.Less l i j = .ret (spaceLess s t) := by
  unfold SpaceList.Less spaceLess
  rw [hi, hj]
  dsimp only
  split_ifs <;> rfl

/-- The order in which a sorted list holds its spaces: no space comes after one that
`Less` puts behind it. -/
theorem spaceLess_false_iff (s t : Space) :
    spaceLess t s = false ↔
      s.VenueID ≤ t.VenueID ∧ (s.VenueID = t.VenueID → stringLess t.Name s.Name = false) := by
  rw [← Bool.not_eq_true, spaceLess_iff]
  constructor
  · intro h
    refine ⟨?_, fun hv => ?_⟩
    · by_contra hlt
      exact h (Or.inl (by omega))
    · rw [← Bool.not_eq_true]
      exact fun hn => h (Or.inr ⟨hv.symm, hn⟩)
  · rintro ⟨h1, h2⟩ (h | ⟨hv, hn⟩)
    · omega
    · rw [h2 hv.symm] at hn
      exact Bool.false_ne_true hn

theorem isSortedLoop_iff (l : SpaceList) : ∀ n : Nat, n < l.length →
    (isSortedLoop l n = .ret true ↔
      ∀ (k : Nat) (s t : Space), k < n → l[k]? = some s → l[k + 1]? = some t →
        spaceLess t s = false)
  | 0, _ => by simp [isSortedLoop]
  | n + 1, hn => by
    have hidx : (((n + 1 : Nat) : Int) - 1) = ((n : Nat) : Int) := by omega
    have h1 : SpaceList.index l ((n + 1 : Nat) : Int) = .ret l[n + 1] := by
      rw [index_natCast, List.getElem?_eq_getElem hn]
    have h0 : SpaceList.index l ((n : Nat) : Int) = .ret (l[n]) := by
      rw [index_natCast, List.getElem?_eq_getElem (by omega)]
    unfold isSortedLoop
    rw [hidx, less_ret l _ _ _ _ h1 h0]
    have ih := isSortedLoop_iff l n (by omega)
    cases hb : spaceLess l[n + 1] l[n]
    · dsimp only
      rw [ih]
      constructor
      · intro h k s t hk hs ht
        by_cases hkn : k = n
        · subst hkn
          rw [List.getElem?_eq_getElem (by omega)] at hs
          rw [List.getElem?_eq_getElem hn] at ht
          cases hs
          cases ht
          exact hb
        · exact h k s t (by omega) hs ht
      · intro h k s t hk hs ht
        exact h k s t (by omega) hs ht
    · dsimp only
      constructor
      · intro h
        cases h
      · intro h
        have := h n l[n] l[n + 1] (by omega) (List.getElem?_eq_getElem (by omega))
          (List.getElem?_eq_getElem hn)
        rw [hb] at this
        cases this

theorem ascending_of_adjacent (l : List Space)
    (h : ∀ (k : Nat) (s t : Space), k + 1 < l.length → l[k]? = some s → l[k + 1]? = some t →
      spaceLess t s = false) :
    ∀ (j i : Nat) (s t : Space), i < j → l[i]? = some s → l[j]? = some t → spaceLess t s = false
  | 0, i, _, _, hij, _, _ => by omega
  | j + 1, i, s, t, hij, hs, ht => by
    have hj : j + 1 < l.length := (List.getElem?_eq_some.1 ht).1
    by_cases hij2 : i = j
    · subst hij2
      exact h i s t hj hs ht
    · have hu : l[j]? = some l[j] := List.getElem?_eq_getElem (by omega)
      have h1 := h j l[j] t hj hu ht
      have h2 := ascending_of_adjacent l h j i s l[j] (by omega) hs hu
      exact spaceLess_negtrans t l[j] s h1 h2

theorem isSorted_iff (l : SpaceList) :
    IsSorted l = .ret true ↔
      ∀ (i j : Nat) (s t : Space), i < j → l[i]? = some s → l[j]? = some t →
        spaceLess t s = false := by
  unfold IsSorted SpaceList.Len
  cases l with
  | nil => simp [isSortedLoop]
  | cons x r =>
    have hn : ((((x :: r).length : Nat) : Int) - 1).toNat = r.length := by
      simp
    rw [hn, isSortedLoop_iff _ _ (by simp)]
    constructor
    · intro h i j s t hij hs ht
      refine ascending_of_adjacent (x :: r) (fun k s t hk hs ht => h k s t ?_ hs ht)
        j i s t hij hs ht
      simpa using hk
    · intro h k s t _ hs ht
      exact h k (k + 1) s t (by omega) hs ht

theorem getElem?_adjacent (p q : List Space) (x y : Space) :
    (p ++ y :: x :: q)[p.length + 1]? = some x ∧ (p ++ y :: x :: q)[p.length]? = some y := by
  constructor
  · rw [List.getElem?_append_right (by omega)]
    simp
  · rw [List.getElem?_append_right (by omega)]
    simp

theorem swap_adjacent (p q : List Space) (x y : Space) :
    SpaceList.Swap (p ++ y :: x :: q) ((p.length + 1 : Nat) : Int) ((p.length : Nat) : Int) =
      .ret (p ++ x :: y :: q) := by
  unfold SpaceList.Swap
  rw [index_natCast, index_natCast, (getElem?_adjacent p q x y).1,
    (getElem?_adjacent p q x y).2]
  dsimp only
  rw [Int.toNat_ofNat, Int.toNat_ofNat, List.set_append_right _ _ (by omega),
    List.set_append_right _ _ (by simp)]
  simp

theorem less_adjacent (p q : List Space) (x y : Space) :
    SpaceList.Less (p ++ y :: x :: q) ((p.length + 1 : Nat) : Int) ((p.length : Nat) : Int) =
      .ret (spaceLess x y) := by
  apply less_ret
  · rw [index_natCast, (getElem?_adjacent p q x y).1]
  · rw [index_natCast, (getElem?_adjacent p q x y).2]

theorem insertionInner_spec : ∀ (d : Nat) (p q : List Space) (x : Space), p.length = d →
    ∃ p1 p2, p = p1 ++ p2 ∧
      insertionInner 0 d (p ++ x :: q) = .ret (p1 ++ x :: (p2 ++ q)) ∧
      (∀ y ∈ p2, spaceLess x y = true) ∧
      (∀ y, p1.getLast? = some y → spaceLess x y = false)
  | 0, p, q, x, hp => by
    have : p = [] := List.length_eq_zero.1 hp
    subst this
    exact ⟨[], [], rfl, rfl, by simp, by simp⟩
  | d + 1, p, q, x, hp => by
    rcases List.eq_nil_or_concat p with hnil | ⟨p0, y, hpy⟩
    · subst hnil
      simp at hp
    rw [List.concat_eq_append] at hpy
    subst hpy
    have hd : p0.length = d := by simpa using hp
    have hi1 : (0 : Int) + ((d + 1 : Nat) : Int) = ((p0.length + 1 : Nat) : Int) := by
      rw [hd]; omega
    have hi0 : (0 : Int) + ((d + 1 : Nat) : Int) - 1 = ((p0.length : Nat) : Int) := by
      rw [hd]; omega
    have hl : p0 ++ [y] ++ x :: q = p0 ++ y :: x :: q := by simp
    unfold insertionInner
    rw [hi0, hi1, hl, less_adjacent]
    cases hb : spaceLess x y
    · refine ⟨p0 ++ [y], [], by simp, by simp, by simp, ?_⟩
      intro z hz
      simp at hz
      rw [← hz]
      exact hb
    · dsimp only
      rw [swap_adjacent]
      dsimp only
      obtain ⟨p1, p2, h1, h2, h3, h4⟩ := insertionInner_spec d p0 (y :: q) x hd
      refine ⟨p1, p2 ++ [y], by simp [h1], by simpa using h2, ?_, h4⟩
      intro z hz
      rcases List.mem_append.1 hz with hz | hz
      · exact h3 z hz
      · simp at hz
        rw [hz]
        exact hb

theorem pairwise_insert (p1 p2 : List Space) (x : Space)
    (hp : (p1 ++ p2).Pairwise (fun s t => spaceLess t s = false))
    (h2 : ∀ y ∈ p2, spaceLess x y = true)
    (h1 : ∀ y, p1.getLast? = some y → spaceLess x y = false) :
    (p1 ++ x :: p2).Pairwise (fun s t => spaceLess t s = false) := by
  rw [List.pairwise_append] at hp ⊢
  obtain ⟨hp1, hp2, hp12⟩ := hp
  refine ⟨hp1, ?_, ?_⟩
  · rw [List.pairwise_cons]
    exact ⟨fun y hy => spaceLess_asymm _ _ (h2 y hy), hp2⟩
  · intro s hs t ht
    rcases List.mem_cons.1 ht with ht | ht
    · subst ht
      rcases List.eq_nil_or_concat p1 with hnil | ⟨p0, z, hz⟩
      · subst hnil
        simp at hs
      · rw [List.concat_eq_append] at hz
        subst hz
        have hxz : spaceLess t z = false := h1 z (by simp)
        rcases List.mem_append.1 hs with hs | hs
        · rw [List.pairwise_append] at hp1
          have := hp1.2.2 s hs z (by simp)
          exact spaceLess_negtrans _ _ _ hxz this
        · simp at hs
          rw [hs]
          exact hxz
    · exact hp12 s hs t ht

theorem insertionOuter_spec : ∀ (n : Nat) (p r : List Space), r.length = n →
    p.Pairwise (fun s t => spaceLess t s = false) →
    ∃ out, insertionOuter 0 n ((p.length : Nat) : Int) (p ++ r) = .ret out ∧
      out.Perm (p ++ r) ∧ out.Pairwise (fun s t => spaceLess t s = false)
  | 0, p, r, hr, hp => by
    have : r = [] := List.length_eq_zero.1 hr
    subst this
    exact ⟨p, by simp [insertionOuter], by simp, hp⟩
  | n + 1, p, r, hr, hp => by
    cases r with
    | nil => simp at hr
    | cons x r =>
      have hn : r.length = n := by simpa using hr
      obtain ⟨p1, p2, h1, h2, h3, h4⟩ := insertionInner_spec p.length p r x rfl
      have hd : (((p.length : Nat) : Int) - 0).toNat = p.length := by simp
      unfold insertionOuter
      rw [hd, h2]
      dsimp only
      have hpw := pairwise_insert p1 p2 x (h1 ▸ hp) h3 h4
      have hlen : ((p.length : Nat) : Int) + 1 = (((p1 ++ x :: p2).length : Nat) : Int) := by
        rw [h1]
        simp
        omega
      have hl : p1 ++ x :: (p2 ++ r) = (p1 ++ x :: p2) ++ r := by simp
      rw [hlen, hl]
      obtain ⟨out, ho1, ho2, ho3⟩ := insertionOuter_spec n (p1 ++ x :: p2) r hn hpw
      refine ⟨out, ho1, ho2.trans ?_, ho3⟩
      rw [h1]
      simp only [List.append_assoc, List.cons_append]
      exact List.Perm.append_left p1 List.perm_middle.symm

theorem insertionSort_spec (l : SpaceList) :
    ∃ out, insertionSort l 0 (SpaceList.Len l) = .ret out ∧ out.Perm l ∧
      IsSorted out = .ret true := by
  unfold insertionSort SpaceList.Len
  cases l with
  | nil => exact ⟨[], by simp [insertionOuter], by simp, by decide⟩
  | cons x r =>
    have hn : ((((x :: r).length : Nat) : Int) - (0 + 1)).toNat = r.length := by
      simp
    have := insertionOuter_spec r.length [x] r rfl (by simp)
    obtain ⟨out, h1, h2, h3⟩ := this
    refine ⟨out, ?_, h2, ?_⟩
    · rw [hn]
      exact h1
    · rw [isSorted_iff]
      intro i j s t hij hs ht
      rw [List.pairwise_iff_getElem] at h3
      obtain ⟨hi, rfl⟩ := List.getElem?_eq_some.1 hs
      obtain ⟨hj, rfl⟩ := List.getElem?_eq_some.1 ht
      exact h3 i j hi hj hij

/-- C21: `SpaceList.Less` is the strict lexicographic order on (VenueID, Name), names in
the byte-wise order of Go strings. For every list and all indices `i`, `j`, `k` in range,
`Less(i, j)` returns the lexicographic comparison of the two spaces; it is irreflexive,
asymmetric and transitive, and two spaces are incomparable exactly when they have the same
VenueID and the same Name. Hence a list in the order of `Less` (one that `sort.IsSorted`
accepts) holds its spaces by ascending VenueID, the spaces of a venue side by side and by
ascending Name, and the insertion sort of package sort returns such an arrangement of the
list it is given. -/
theorem less_strict_lexicographic (l : SpaceList) (i j k : Int)
    (hi : 0 ≤ i ∧ i < SpaceList.Len l) (hj : 0 ≤ j ∧ j < SpaceList.Len l)
    (hk : 0 ≤ k ∧ k < SpaceList.Len l) :
    (∃ s t, SpaceList.index l i = .ret s ∧ SpaceList.index l j = .ret t ∧
      SpaceList.Less l i j = .ret (decide (s.VenueID < t.VenueID ∨
        (s.VenueID = t.VenueID ∧ stringLess s.Name t.Name = true))) ∧
      ((SpaceList.Less l i j = .ret false ∧ SpaceList.Less l j i = .ret false) ↔
        (s.VenueID = t.VenueID ∧ s.Name = t.Name))) ∧
    SpaceList.Less l i i = .ret false ∧
    (SpaceList.Less l i j = .ret true → SpaceList.Less l j i = .ret false) ∧
    (SpaceList.Less l i j = .ret true → SpaceList.Less l j k = .ret true →
      SpaceList.Less l i k = .ret true) ∧
    (∀ sorted : SpaceList, IsSorted sorted = .ret true →
      ∀ (a b : Nat) (s t : Space), a < b → sorted[a]? = some s → sorted[b]? = some t →
        s.VenueID ≤ t.VenueID ∧
        (s.VenueID = t.VenueID → stringLess t.Name s.Name = false) ∧
        (s.VenueID = t.VenueID → ∀ (c : Nat) (u : Space), a < c → c < b →
          sorted[c]? = some u → u.VenueID = s.VenueID)) ∧
    (∃ sorted, insertionSort l 0 (SpaceList.Len l) = .ret sorted ∧ sorted.Perm l ∧
      IsSorted sorted = .ret true) := by
  obtain ⟨s, -, hs⟩ := index_ret l i hi.1 hi.2
  obtain ⟨t, -, ht⟩ := index_ret l j hj.1 hj.2
  obtain ⟨u, -, hu⟩ := index_ret l k hk.1 hk.2
  rw [less_ret l i j s t hs ht, less_ret l j i t s ht hs, less_ret l i i s s hs hs,
    less_ret l j k t u ht hu, less_ret l i k s u hs hu]
  simp only [Res.ret.injEq]
  refine ⟨⟨s, t, hs, ht, ?_, spaceLess_incomparable s t⟩, spaceLess_irrefl s,
    spaceLess_asymm s t, spaceLess_trans s t u, ?_, insertionSort_spec l⟩
  · rw [Bool.eq_iff_iff, spaceLess_iff, decide_eq_true_eq]
  · intro sorted hsorted a b s t hab hs ht
    rw [isSorted_iff] at hsorted
    have hst := (spaceLess_false_iff s t).1 (hsorted a b s t hab hs ht)
    refine ⟨hst.1, hst.2, fun hv c u hac hcb hu => ?_⟩
    have h1 := ((spaceLess_false_iff s u).1 (hsorted a c s u hac hs hu)).1
    have h2 := ((spaceLess_false_iff u t).1 (hsorted c b u t hcb hu ht)).1
    omega

/-- Witness of C21: among the five sample spaces, the space at 2 (venue 1) comes before
the space at 1 (venue 2, Alpha), which comes before the space at 0 (venue 2, Zeta), so the
space at 2 comes before the space at 0; the spaces at 1 and at 3 share venue and name and
neither comes before the other. -/
theorem less_strict_lexicographic_witness :
    ((0 : Int) ≤ 2 ∧ (2 : Int) < SpaceList.Len rooms) ∧
    SpaceList.Less rooms 2 1 = .ret true ∧ SpaceList.Less rooms 1 0 = .ret true ∧
    SpaceList.Less rooms 2 0 = .ret true ∧
    SpaceList.Less rooms 1 2 = .ret false ∧
    SpaceList.Less rooms 1 3 = .ret false ∧ SpaceList.Less rooms 3 1 = .ret false :=
  ⟨by decide, by decide, by decide,
    (less_strict_lexicographic rooms 2 1 0 (by decide) (by decide) (by decide)).2.2.2.1
      (by decide) (by decide),
    (less_strict_lexicographic rooms 2 1 0 (by decide) (by decide) (by decide)).2.2.1
      (by decide),
    by decide, by decide⟩

end skedda
